import Mathlib

/-!
Shallow embedding of the EMT5 convenience layer over the MetaTrader 5
terminal API, together with theorems settling the specification claims.

Python dicts are modelled as insertion-ordered association lists
`List (String × PyVal)`; the external terminal API is modelled as an
environment record whose fields are oracles for the external calls.
-/

set_option autoImplicit false

/-- A Python runtime value as it appears in the dicts this library builds:
integers, floats (as rationals), strings, `datetime` objects (UTC seconds
as a rational), and namedtuples / nested dicts of further values. -/
inductive PyVal where
  | int : Int → PyVal
  | rat : Rat → PyVal
  | str : String → PyVal
  | dt : Rat → PyVal
  | tup : List (String × PyVal) → PyVal
  | dict : List (String × PyVal) → PyVal

/-- The exceptions raised by the library: Python `ValueError`/`TypeError`
and the typed `MT5*Error` exception classes from `src/utils/exceptions.py`. -/
inductive PyErr where
  | valueError
  | typeError
  | mt5ConnectionError
  | mt5OrderError
  | mt5ValidationError
deriving DecidableEq, Repr

/-- A Python dict: insertion-ordered association list. -/
abbrev PyDict := List (String × PyVal)

namespace PyDict

/-- `d[k]` lookup (first binding wins; keys are unique in Python dicts). -/
def lookupD (d : PyDict) (k : String) : Option PyVal :=
  match d with
  | [] => none
  | (k', v) :: rest => if k' = k then some v else lookupD rest k

/-- `k in d`. -/
def hasKey (d : PyDict) (k : String) : Bool :=
  (lookupD d k).isSome

/-- `d[k] = v`: overwrite in place when the key exists (keeping its
position, as Python dicts do), append at the end otherwise. -/
def setD (d : PyDict) (k : String) (v : PyVal) : PyDict :=
  match d with
  | [] => [(k, v)]
  | (k', v') :: rest =>
      if k' = k then (k', v) :: rest else (k', v') :: setD rest k v

/-- The keys of the dict, in insertion order. -/
def keysD (d : PyDict) : List String := d.map Prod.fst

theorem lookupD_setD_self (d : PyDict) (k : String) (v : PyVal) :
    lookupD (setD d k v) k = some v := by
  induction d with
  | nil => simp [setD, lookupD]
  | cons hd tl ih =>
      obtain ⟨k', v'⟩ := hd
      by_cases h : k' = k <;> simp [setD, lookupD, h, ih]

theorem lookupD_setD_ne (d : PyDict) (k k' : String) (v : PyVal)
    (h : k ≠ k') : lookupD (setD d k v) k' = lookupD d k' := by
  induction d with
  | nil => simp [setD, lookupD, h]
  | cons hd tl ih =>
      obtain ⟨k₀, v₀⟩ := hd
      by_cases h0 : k₀ = k
      · subst h0
        simp [setD, lookupD, h]
      · simp [setD, lookupD, h0, ih]

end PyDict

open PyDict

/-! ## `src/utils/core/converters.py` -/

/-- Python `str.lower()`, written on the character list so that it
computes by kernel reduction. -/
def strLower (s : String) : String := String.mk (s.data.map Char.toLower)

/-- Python `str.endswith(suffix)`, written on the character lists so that
it computes by kernel reduction. -/
def strEndsWith (s suffix : String) : Bool := List.isSuffixOf suffix.data s.data

/-- Floor of a rational (Python `//` for a positive divisor is
`ratFloor (a / b)`), written on the numerator and denominator so that it
computes by kernel reduction. -/
def ratFloor (q : Rat) : Int := q.num / (q.den : Int)

/-- `ratFloor` agrees with the mathematical floor. -/
theorem ratFloor_eq_floor (q : Rat) : ratFloor q = ⌊q⌋ := by
  rw [Rat.floor_def]
  rfl

/-- Python truthiness of a value (`bool(v)`). -/
def pyTruthy : PyVal → Bool
  | .int n => n ≠ 0
  | .rat q => q ≠ 0
  | .str s => s ≠ ""
  | .dt _ => true
  | .tup l => !l.isEmpty
  | .dict l => !l.isEmpty

/-- Python `v > 0`: defined for numbers, a `TypeError` (modelled as `none`)
for anything else. -/
def pyGtZero : PyVal → Option Bool
  | .int n => some (0 < n)
  | .rat q => some (0 < q)
  | _ => none

/-- The numeric value of a number, as a rational. -/
def pyToRat : PyVal → Rat
  | .int n => (n : Rat)
  | .rat q => q
  | _ => 0

/-- The UTC datetime derived from a timestamp dict value in
`add_datetime_fields`: the number, divided by 1000 when the field name
ends in `_msc` or the value exceeds 10000000000. -/
def dtValue (field : String) (v : PyVal) : Rat :=
  let ts := pyToRat v
  if strEndsWith field "_msc" ∨ ts > 10000000000 then ts / 1000 else ts

/-- Whether `add_datetime_fields` converts a present value: Python
`data[field] and data[field] > 0` on a number. -/
def tsApplicable (v : PyVal) : Bool :=
  pyTruthy v && (pyGtZero v == some true)

/-- `add_datetime_fields(data, time_fields, suffix)` from
`src/utils/core/converters.py`: for every listed field that is present,
truthy and `> 0`, store under `field + suffix` a UTC datetime derived from
the timestamp, dividing by 1000 when the field name ends in `_msc` or the
value exceeds 10000000000.  `none` models a raised `TypeError` (comparing
a truthy non-number with 0). -/
def addDatetimeFields (data : PyDict) (timeFields : List String)
    (suffix : String) : Option PyDict :=
  match timeFields with
  | [] => some data
  | field :: rest =>
      match lookupD data field with
      | none => addDatetimeFields data rest suffix
      | some v =>
          if pyTruthy v then
            match pyGtZero v with
            | none => none
            | some false => addDatetimeFields data rest suffix
            | some true =>
                addDatetimeFields
                  (setD data (field ++ suffix) (.dt (dtValue field v)))
                  rest suffix
          else addDatetimeFields data rest suffix

/-- `add_datetime_fields` applied to a possibly-`None` dict: the function
returns its `None` input unchanged. -/
def addDatetimeFieldsOpt (data : Option PyDict) (timeFields : List String)
    (suffix : String) : Option (Option PyDict) :=
  match data with
  | none => some none
  | some d => (addDatetimeFields d timeFields suffix).map some

/-! ## `src/utils/core/connection.py` -/

/-- The state held by an `MT5Connection` instance: the `connected` flag and
the stored `login` and `server` values set on a successful attempt. -/
structure ConnState where
  connected : Bool
  loginV : Option Int
  serverV : Option String
deriving DecidableEq, Repr

/-- `MT5Connection.__init__`. -/
def ConnState.init : ConnState :=
  { connected := false, loginV := none, serverV := none }

/-- Outcome of one external `mt5.initialize(...)` call: success, failure
with a `last_error` code, or a raised exception. -/
inductive AttRes where
  | ok
  | fail (err : Int)
  | exn
deriving DecidableEq, Repr

/-- The external world seen by `MT5Connection.initialize`: the outcome of
the i-th initialization attempt, and whether `subprocess.Popen` succeeds. -/
structure InitEnv where
  attemptRes : Nat → AttRes
  spawnOk : Bool

/-- Observable events of an `initialize` run: an external initialization
call (for attempt `i`), the fixed `retry_delay` sleep, spawning the
terminal process, and the fixed 5-second wait after spawning. -/
inductive InitEv where
  | callInit (i : Nat)
  | sleepRetry
  | spawnTerminal
  | sleepStart
deriving DecidableEq, Repr

/-- Result of running (a suffix of) the `initialize` retry loop: the event
trace, whether the method returned `True` (`false` means it raised
`MT5ConnectionError`), and the final connection state. -/
structure InitRun where
  trace : List InitEv
  success : Bool
  state : ConnState
deriving Repr

/-- The retry loop of `MT5Connection.initialize` starting at attempt `i`
with `fuel` attempts left (`fuel = retry - i` at the call site), threading
the connection state. Each iteration makes one external call; on success it
sets `connected`, `login` and `server` and returns `True`; on failure it
clears `connected` and sleeps `retry_delay` unless it is the last attempt —
except that a first-attempt failure with error code `-10001` when a path
was given spawns the terminal, waits 5 seconds and retries immediately,
leaving the state untouched. When the fuel runs out the method raises
`MT5ConnectionError`. -/
def initLoop (env : InitEnv) (pathGiven : Bool) (login : Option Int)
    (server : Option String) (retry : Nat) :
    Nat → Nat → ConnState → InitRun
  | 0, _, st => { trace := [], success := false, state := st }
  | fuel + 1, i, st =>
      match env.attemptRes i with
      | .ok =>
          { trace := [.callInit i], success := true,
            state := { connected := true, loginV := login, serverV := server } }
      | .exn =>
          let tail := initLoop env pathGiven login server retry fuel (i + 1)
            { st with connected := false }
          { trace := .callInit i ::
              ((if i < retry - 1 then [.sleepRetry] else []) ++ tail.trace),
            success := tail.success, state := tail.state }
      | .fail err =>
          if err = -10001 ∧ pathGiven ∧ i = 0 ∧ env.spawnOk then
            let tail := initLoop env pathGiven login server retry fuel (i + 1) st
            { trace := .callInit i :: .spawnTerminal :: .sleepStart :: tail.trace,
              success := tail.success, state := tail.state }
          else
            let tail := initLoop env pathGiven login server retry fuel (i + 1)
              { st with connected := false }
            { trace := .callInit i ::
                ((if i < retry - 1 then [.sleepRetry] else []) ++ tail.trace),
              success := tail.success, state := tail.state }

/-- `MT5Connection.initialize(path, login, ..., retry, retry_delay)` run on
a connection in state `st`: the full retry loop over `retry` attempts. -/
def mt5Initialize (env : InitEnv) (pathGiven : Bool) (login : Option Int)
    (server : Option String) (retry : Nat) (st : ConnState) : InitRun :=
  initLoop env pathGiven login server retry retry 0 st

/-- `MT5Connection.shutdown`: clears the `connected` flag (calling the
external `mt5.shutdown()` only when it was set). -/
def mt5Shutdown (st : ConnState) : ConnState :=
  if st.connected then { st with connected := false } else st

/-- `MT5Connection.is_connected`. -/
def mt5IsConnected (st : ConnState) : Bool :=
  st.connected

/-- Environment for the simple connection queries: the records returned by
`mt5.terminal_info()` and `mt5.version()`, and the outcome of `mt5.login`. -/
structure ConnQueryEnv where
  terminalInfo : Option PyDict
  version : Option (Int × Int × String)
  loginRes : AttRes

/-- `MT5Connection.get_terminal_info`: raises `MT5ConnectionError` when not
connected, otherwise returns the terminal record as a dict (or `None`). -/
def mt5GetTerminalInfo (env : ConnQueryEnv) (st : ConnState) :
    Except PyErr (Option PyDict) :=
  if ¬ st.connected then .error .mt5ConnectionError
  else .ok env.terminalInfo

/-- `MT5Connection.get_version`: raises `MT5ConnectionError` when not
connected, otherwise returns `mt5.version()`. -/
def mt5GetVersion (env : ConnQueryEnv) (st : ConnState) :
    Except PyErr (Option (Int × Int × String)) :=
  if ¬ st.connected then .error .mt5ConnectionError
  else .ok env.version

/-- `MT5Connection.login(login, password, server, timeout)`: raises
`MT5ConnectionError` when the terminal is not initialized; otherwise calls
the external `mt5.login`, stores the login and server and returns `True`
on success, and returns `False` (logging) on failure or exception. -/
def mt5Login (env : ConnQueryEnv) (st : ConnState) (login : Int)
    (server : Option String) : Except PyErr (ConnState × Bool) :=
  if ¬ st.connected then .error .mt5ConnectionError
  else
    match env.loginRes with
    | .ok => .ok ({ st with loginV := some login, serverV := server }, true)
    | .fail _ => .ok (st, false)
    | .exn => .ok (st, false)

/-! ## MetaTrader 5 constants used by the library -/

def TRADE_ACTION_DEAL : Int := 1
def TRADE_ACTION_PENDING : Int := 5
def ORDER_TYPE_BUY : Int := 0
def ORDER_TYPE_SELL : Int := 1
def ORDER_TYPE_BUY_LIMIT : Int := 2
def ORDER_TYPE_SELL_LIMIT : Int := 3
def ORDER_TYPE_BUY_STOP : Int := 4
def ORDER_TYPE_SELL_STOP : Int := 5
def ORDER_TIME_GTC : Int := 0
def ORDER_FILLING_FOK : Int := 0
def ORDER_FILLING_IOC : Int := 1
def ORDER_FILLING_RETURN : Int := 2
def TRADE_RETCODE_DONE : Int := 10009

/-! ## The external terminal API as an environment -/

/-- The fields of an `mt5.symbol_info(...)` record that the library reads. -/
structure SymInfo where
  fillingMode : Nat
  volumeMin : Rat
  volumeMax : Rat
  volumeStep : Rat
deriving DecidableEq, Repr

/-- Outcome of an external `mt5.order_send` / `mt5.order_check` call:
`None`, a raised exception, or a result record (a namedtuple, as a dict). -/
inductive SendOutcome where
  | retNone
  | exn
  | ok (rec : PyDict)

/-- Outcome of an external `mt5.order_calc_margin` / `order_calc_profit`
call: `None`, a raised exception, or a numeric value. -/
inductive CalcRes where
  | retNone
  | exn
  | val (q : Rat)
deriving DecidableEq, Repr

/-- The external terminal API surface used by the trade and info modules. -/
structure ExtEnv where
  symbolTick : String → Option (Rat × Rat)
  symbolInfo : String → Option SymInfo
  orderSendRes : SendOutcome
  orderCheckRes : SendOutcome
  orderCalcMargin : Int → String → Rat → Rat → CalcRes
  orderCalcProfit : Int → String → Rat → Rat → Rat → CalcRes
  accountInfo : Option PyDict

/-! ## `src/utils/trade/executor.py` -/

/-- Python `x != n` between a dict value and an integer constant: numeric
comparison for numbers, `True` for any other type. -/
def pyNeInt (v : PyVal) (n : Int) : Bool :=
  match v with
  | .int m => m ≠ n
  | .rat q => q ≠ (n : Rat)
  | _ => true

/-- The nested-`request` conversion in `MT5Executor.send`/`check`: when the
result dict holds a namedtuple under `"request"`, replace it by its dict. -/
def convertNestedRequest (d : PyDict) : PyDict :=
  match lookupD d "request" with
  | some (.tup l) => setD d "request" (.dict l)
  | _ => d

/-- Result of an executor call: how many warnings were logged, and either a
raised exception or the returned value (`none` is Python `None`). -/
structure ExecOut where
  warnings : Nat
  result : Except PyErr (Option PyDict)

/-- Python `round(q)`: round half to even, as a rational on an integer. -/
def pyRound (q : Rat) : Int :=
  let f := ratFloor q
  let r := q - (f : Rat)
  if r < 1/2 then f
  else if 1/2 < r then f + 1
  else if f % 2 = 0 then f else f + 1

/-- `MT5Executor._validate_volume(request)`: when the request names a
symbol and a volume and the symbol record is available, raise
`MT5ValidationError` if the volume is below `volume_min`, above
`volume_max`, or off the `volume_step` grid by more than `1e-8`; any other
trouble (missing keys, unavailable record, non-numeric values) is only a
logged warning. -/
def validateVolume (env : ExtEnv) (req : PyDict) : Except PyErr Unit :=
  match lookupD req "symbol", lookupD req "volume" with
  | some (.str s), some vol =>
      match env.symbolInfo s with
      | none => .ok ()
      | some si =>
          match vol with
          | .int n => validateVolumeNum si (n : Rat)
          | .rat q => validateVolumeNum si q
          | _ => .ok ()
  | _, _ => .ok ()
where
  /-- The numeric min/max/step checks of `_validate_volume`. -/
  validateVolumeNum (si : SymInfo) (q : Rat) : Except PyErr Unit :=
    if q < si.volumeMin then .error .mt5ValidationError
    else if q > si.volumeMax then .error .mt5ValidationError
    else if 0 < si.volumeStep then
      let steps := pyRound ((q - si.volumeMin) / si.volumeStep)
      let expected := si.volumeMin + (steps : Rat) * si.volumeStep
      if |q - expected| > 1/100000000 then .error .mt5ValidationError
      else .ok ()
    else .ok ()

/-- `MT5Executor.send(request)`: under `require_connection` it returns
`None` when the `connection` attribute is missing or disconnected; raises
`MT5ValidationError` when `request` is not a dict; calls the external
`mt5.order_send` once, raising `MT5OrderError` when it returns `None` or
any exception occurs; otherwise logs two warnings when the retcode is not
`TRADE_RETCODE_DONE`, converts the record to a dict, converts a nested
namedtuple `request` field, and attaches derived datetime fields. -/
def executorSend (env : ExtEnv) (conn : Option ConnState) (request : PyVal) :
    ExecOut :=
  match conn with
  | none => { warnings := 0, result := .ok none }
  | some c =>
      if ¬ c.connected then { warnings := 0, result := .ok none }
      else
        match request with
        | .dict req => executorSendBody env req
        | _ => { warnings := 0, result := .error .mt5ValidationError }
where
  /-- The body of `send` after the connection and type checks. -/
  executorSendBody (env : ExtEnv) (_req : PyDict) : ExecOut :=
    match env.orderSendRes with
    | .retNone => { warnings := 0, result := .error .mt5OrderError }
    | .exn => { warnings := 0, result := .error .mt5OrderError }
    | .ok rec =>
        match lookupD rec "retcode" with
        | none => { warnings := 0, result := .error .mt5OrderError }
        | some rc =>
            let w := if pyNeInt rc TRADE_RETCODE_DONE then 2 else 0
            let d := convertNestedRequest rec
            match addDatetimeFields d
                ["time", "time_setup", "time_expiration", "time_done"] "_dt" with
            | none => { warnings := w, result := .error .mt5OrderError }
            | some out => { warnings := w, result := .ok (some out) }

/-- `MT5Executor.check(request)`: like `send` but it first runs
`_validate_volume` (whose `MT5ValidationError` propagates), calls the
external `mt5.order_check` once, and does not attach datetime fields. -/
def executorCheck (env : ExtEnv) (conn : Option ConnState) (request : PyVal) :
    ExecOut :=
  match conn with
  | none => { warnings := 0, result := .ok none }
  | some c =>
      if ¬ c.connected then { warnings := 0, result := .ok none }
      else
        match request with
        | .dict req =>
            match validateVolume env req with
            | .error e => { warnings := 0, result := .error e }
            | .ok () => executorCheckBody env req
        | _ => { warnings := 0, result := .error .mt5ValidationError }
where
  /-- The body of `check` after connection, type and volume checks. -/
  executorCheckBody (env : ExtEnv) (_req : PyDict) : ExecOut :=
    match env.orderCheckRes with
    | .retNone => { warnings := 0, result := .error .mt5OrderError }
    | .exn => { warnings := 0, result := .error .mt5OrderError }
    | .ok rec =>
        match lookupD rec "retcode" with
        | none => { warnings := 0, result := .error .mt5OrderError }
        | some rc =>
            let w := if pyNeInt rc TRADE_RETCODE_DONE then 2 else 0
            { warnings := w, result := .ok (some (convertNestedRequest rec)) }

/-! ## `src/utils/trade/request_builder.py` -/

/-- The accumulated state of an `OrderRequestBuilder` instance. -/
structure Builder where
  symbol : String
  defaultMagic : Int
  action : Option Int
  orderType : Option Int
  volume : Rat
  price : Rat
  sl : Rat
  tp : Rat
  deviation : Int
  magic : Int
  comment : String
  position : Int

namespace Builder

/-- `OrderRequestBuilder.__init__(symbol, connection, executor,
default_magic)`. -/
def mk0 (symbol : String) (defaultMagic : Int) : Builder :=
  { symbol := symbol, defaultMagic := defaultMagic,
    action := none, orderType := none, volume := 0, price := 0,
    sl := 0, tp := 0, deviation := 20, magic := defaultMagic,
    comment := "", position := 0 }

/-- `market_buy(volume)`: records a deal/buy at the current ask price;
raises `ValueError` when the tick is unavailable. Returning the updated
builder models `return self` for chaining. -/
def marketBuy (env : ExtEnv) (b : Builder) (volume : Rat) :
    Except PyErr Builder :=
  match env.symbolTick b.symbol with
  | none => .error .valueError
  | some (_, ask) =>
      .ok { b with action := some TRADE_ACTION_DEAL,
                   orderType := some ORDER_TYPE_BUY,
                   volume := volume, price := ask }

/-- `market_sell(volume, position)`: records a deal/sell at the current bid
price and the position ticket; raises `ValueError` when the tick is
unavailable. -/
def marketSell (env : ExtEnv) (b : Builder) (volume : Rat) (position : Int) :
    Except PyErr Builder :=
  match env.symbolTick b.symbol with
  | none => .error .valueError
  | some (bid, _) =>
      .ok { b with action := some TRADE_ACTION_DEAL,
                   orderType := some ORDER_TYPE_SELL,
                   volume := volume, price := bid, position := position }

/-- `limit_buy(volume, price)`. -/
def limitBuy (b : Builder) (volume price : Rat) : Builder :=
  { b with action := some TRADE_ACTION_PENDING,
           orderType := some ORDER_TYPE_BUY_LIMIT,
           volume := volume, price := price }

/-- `limit_sell(volume, price)`. -/
def limitSell (b : Builder) (volume price : Rat) : Builder :=
  { b with action := some TRADE_ACTION_PENDING,
           orderType := some ORDER_TYPE_SELL_LIMIT,
           volume := volume, price := price }

/-- `stop_buy(volume, price)`. -/
def stopBuy (b : Builder) (volume price : Rat) : Builder :=
  { b with action := some TRADE_ACTION_PENDING,
           orderType := some ORDER_TYPE_BUY_STOP,
           volume := volume, price := price }

/-- `stop_sell(volume, price)`. -/
def stopSell (b : Builder) (volume price : Rat) : Builder :=
  { b with action := some TRADE_ACTION_PENDING,
           orderType := some ORDER_TYPE_SELL_STOP,
           volume := volume, price := price }

/-- `with_sl(sl)`. -/
def withSl (b : Builder) (sl : Rat) : Builder := { b with sl := sl }

/-- `with_tp(tp)`. -/
def withTp (b : Builder) (tp : Rat) : Builder := { b with tp := tp }

/-- `with_sl_tp(sl, tp)`. -/
def withSlTp (b : Builder) (sl tp : Rat) : Builder :=
  { b with sl := sl, tp := tp }

/-- `with_deviation(deviation)`. -/
def withDeviation (b : Builder) (deviation : Int) : Builder :=
  { b with deviation := deviation }

/-- `with_magic(magic)`. -/
def withMagic (b : Builder) (magic : Int) : Builder :=
  { b with magic := magic }

/-- `with_comment(comment)`. -/
def withComment (b : Builder) (comment : String) : Builder :=
  { b with comment := comment }

/-- `_get_filling_mode()` (shared verbatim with
`MT5Executor._get_filling_mode`): IOC when the symbol record is missing or
bit 0 of its filling mode is set, FOK on bit 1, RETURN otherwise. -/
def getFillingMode (env : ExtEnv) (symbol : String) : Int :=
  match env.symbolInfo symbol with
  | none => ORDER_FILLING_IOC
  | some si =>
      if si.fillingMode &&& 1 ≠ 0 then ORDER_FILLING_IOC
      else if si.fillingMode &&& 2 ≠ 0 then ORDER_FILLING_FOK
      else ORDER_FILLING_RETURN

/-- `build()`: raises `ValueError` unless an order-type method ran, then
returns the request dict of the accumulated fields, appending a
`"position"` entry exactly when the recorded position ticket is positive. -/
def build (env : ExtEnv) (b : Builder) : Except PyErr PyDict :=
  match b.action, b.orderType with
  | some a, some t =>
      .ok ([("action", .int a), ("symbol", .str b.symbol),
            ("volume", .rat b.volume), ("type", .int t),
            ("price", .rat b.price), ("sl", .rat b.sl),
            ("tp", .rat b.tp), ("deviation", .int b.deviation),
            ("magic", .int b.magic), ("comment", .str b.comment),
            ("type_time", .int ORDER_TIME_GTC),
            ("type_filling", .int (getFillingMode env b.symbol))] ++
           (if 0 < b.position then [("position", .int b.position)] else []))
  | _, _ => .error .valueError

/-- `send()`: `build()` then `executor.send` on the result (a raised
`ValueError` from `build` propagates). -/
def sendB (env : ExtEnv) (conn : Option ConnState) (b : Builder) :
    Except PyErr ExecOut :=
  match build env b with
  | .error e => .error e
  | .ok req => .ok (executorSend env conn (.dict req))

/-- `check()`: `build()` then `executor.check` on the result. -/
def checkB (env : ExtEnv) (conn : Option ConnState) (b : Builder) :
    Except PyErr ExecOut :=
  match build env b with
  | .error e => .error e
  | .ok req => .ok (executorCheck env conn (.dict req))

end Builder

/-! ## `src/utils/trade/calculator.py` -/

/-- `MT5Calculator._get_order_type(action)`: the lowercase action-string
to MT5 order-type constant table. -/
def getOrderType (action : String) : Option Int :=
  match strLower action with
  | "buy" => some ORDER_TYPE_BUY
  | "sell" => some ORDER_TYPE_SELL
  | "buy_limit" => some ORDER_TYPE_BUY_LIMIT
  | "sell_limit" => some ORDER_TYPE_SELL_LIMIT
  | "buy_stop" => some ORDER_TYPE_BUY_STOP
  | "sell_stop" => some ORDER_TYPE_SELL_STOP
  | _ => none

/-- `MT5Calculator.calc_margin(symbol, volume, action, price)`: `None` when
disconnected, on an invalid action string, when no price is given and the
tick is unavailable, or when the single external `order_calc_margin` call
returns `None` or raises; otherwise the float of that call's value. -/
def calcMargin (env : ExtEnv) (connected : Bool) (symbol : String)
    (volume : Rat) (action : String) (price : Option Rat) : Option Rat :=
  if ¬ connected then none
  else
    match getOrderType action with
    | none => none
    | some orderType =>
        let priceRes : Option Rat :=
          match price with
          | some p => some p
          | none =>
              match env.symbolTick symbol with
              | none => none
              | some (bid, ask) =>
                  if action = "buy" ∨ action = "buy_limit" ∨ action = "buy_stop"
                  then some ask else some bid
        match priceRes with
        | none => none
        | some p =>
            match env.orderCalcMargin orderType symbol volume p with
            | .retNone => none
            | .exn => none
            | .val m => some m

/-- `MT5Calculator.calc_profit(symbol, volume, price_open, price_close,
action)`: `None` when disconnected, when the action is neither `'buy'` nor
`'sell'`, or when the single external `order_calc_profit` call returns
`None` or raises; otherwise the float of that call's value. -/
def calcProfit (env : ExtEnv) (connected : Bool) (symbol : String)
    (volume priceOpen priceClose : Rat) (action : String) : Option Rat :=
  if ¬ connected then none
  else
    let orderType : Option Int :=
      if strLower action = "buy" then some ORDER_TYPE_BUY
      else if strLower action = "sell" then some ORDER_TYPE_SELL
      else none
    match orderType with
    | none => none
    | some t =>
        match env.orderCalcProfit t symbol volume priceOpen priceClose with
        | .retNone => none
        | .exn => none
        | .val p => some p

/-- Python `round(q, 2)` with round-half-even. -/
def pyRound2 (q : Rat) : Rat :=
  ((pyRound (q * 100)) : Rat) / 100

/-- `MT5Calculator.calc_risk_reward(...)`: two `calc_profit` calls plus
ratio arithmetic of its own. -/
def calcRiskReward (env : ExtEnv) (connected : Bool) (symbol : String)
    (volume entryPrice slPrice tpPrice : Rat) (action : String) :
    Option (Rat × Rat × Rat × Rat × Rat) :=
  match calcProfit env connected symbol volume entryPrice slPrice action with
  | none => none
  | some slLoss =>
      match calcProfit env connected symbol volume entryPrice tpPrice action with
      | none => none
      | some tpProfit =>
          let riskAmount := |slLoss|
          let rewardAmount := |tpProfit|
          if riskAmount = 0 then none
          else some (slLoss, tpProfit, rewardAmount / riskAmount,
                     riskAmount, rewardAmount)

/-- `MT5Calculator.calc_position_size(symbol, risk_amount, entry_price,
sl_price, action)`: one `calc_profit` call for the per-lot loss, then its
own arithmetic — `risk_amount / |loss|`, floor-division to the volume
step, clamping into `[volume_min, volume_max]`, and `round(volume, 2)`. -/
def calcPositionSize (env : ExtEnv) (connected : Bool) (symbol : String)
    (riskAmount entryPrice slPrice : Rat) (action : String) : Option Rat :=
  match calcProfit env connected symbol 1 entryPrice slPrice action with
  | none => none
  | some lossPerLot =>
      let loss := |lossPerLot|
      if loss = 0 then none
      else
        let volume := riskAmount / loss
        let volume :=
          match env.symbolInfo symbol with
          | none => volume
          | some si =>
              let v := if 0 < si.volumeStep
                       then ((ratFloor (volume / si.volumeStep)) : Rat) *
                         si.volumeStep
                       else volume
              max si.volumeMin (min v si.volumeMax)
        some (pyRound2 volume)

/-! ## `src/utils/info/account.py` -/

/-- `MT5Account.get_account_info()`: `None` (after logging an error,
without touching the external API) when the connection reports
disconnected; otherwise the `mt5.account_info()` record converted to a
plain dict via `_asdict()`, or `None` when the external query returns
`None`. -/
def getAccountInfo (env : ExtEnv) (conn : ConnState) : Option PyDict :=
  if ¬ conn.connected then none
  else
    match env.accountInfo with
    | none => none
    | some rec => some rec

/-! ## `src/utils/manager/account_manager.py` -/

/-- The state guarded by the manager's mutex: the name-to-client table
(client instances carry nothing the claims observe, so entries are the
account aliases in insertion order) and the current-account selection. -/
structure MgrState where
  accounts : List String
  currentAccount : Option String
deriving DecidableEq, Repr

/-- `MT5AccountManager.__init__` (first construction of the singleton). -/
def MgrState.init : MgrState := { accounts := [], currentAccount := none }

/-- The external world seen by the manager: whether `EMT5.initialize`
succeeds for a given account alias (`False` covers both a `False` return
and a raised exception — the manager treats them identically). -/
structure MgrEnv where
  connectOk : String → Bool

/-- `MT5AccountManager.add_account(name, ..., auto_connect)`: under the
lock, refuse a duplicate name; with `auto_connect`, refuse when the
client's `initialize` fails or raises; otherwise store the client and make
it current when no current account exists. -/
def addAccount (env : MgrEnv) (s : MgrState) (name : String)
    (autoConnect : Bool) : MgrState × Bool :=
  if name ∈ s.accounts then (s, false)
  else if autoConnect ∧ ¬ env.connectOk name then (s, false)
  else ({ accounts := s.accounts ++ [name],
          currentAccount :=
            match s.currentAccount with
            | none => some name
            | some c => some c }, true)

/-- `MT5AccountManager.remove_account(name)`: under the lock, refuse an
absent name; otherwise shut the client down, delete the entry, and when it
was the current account select the first remaining one (`None` if the
table became empty). -/
def removeAccount (s : MgrState) (name : String) : MgrState × Bool :=
  if name ∈ s.accounts then
    let rest := s.accounts.erase name
    ({ accounts := rest,
       currentAccount :=
         if s.currentAccount = some name then rest.head?
         else s.currentAccount }, true)
  else (s, false)

/-- `MT5AccountManager.switch_account(name)`: under the lock, refuse an
absent name, otherwise make it current. -/
def switchAccount (s : MgrState) (name : String) : MgrState × Bool :=
  if name ∈ s.accounts then
    ({ s with currentAccount := some name }, true)
  else (s, false)

/-- A manager API call that changes state. -/
inductive MgrOp where
  | add (name : String) (autoConnect : Bool)
  | remove (name : String)
  | switch (name : String)

/-- One manager call (dropping the returned Bool). -/
def applyMgrOp (env : MgrEnv) (s : MgrState) : MgrOp → MgrState
  | .add name auto => (addAccount env s name auto).1
  | .remove name => (removeAccount s name).1
  | .switch name => (switchAccount s name).1

/-- The state after a sequence of manager calls on a fresh manager. -/
def runMgr (env : MgrEnv) (ops : List MgrOp) : MgrState :=
  ops.foldl (applyMgrOp env) MgrState.init

/-- The manager invariant: the current account is `None` exactly when the
table is empty, the current account (when set) is a key of the table, and
the table has no duplicate keys. -/
def MgrInv (s : MgrState) : Prop :=
  (s.currentAccount = none ↔ s.accounts = []) ∧
  (∀ n, s.currentAccount = some n → n ∈ s.accounts) ∧
  s.accounts.Nodup

/-! ## Claim theorems -/

/-- **C1.** Each order-type and `with_*` method of the builder returns the
(updated) builder so that calls chain, construction is deferred to the
terminal methods, `build()` produces a dict whose keys are exactly
`action, symbol, volume, type, price, sl, tp, deviation, magic, comment,
type_time, type_filling` — plus `position` exactly when a positive position
ticket was recorded — holding the accumulated values, `send()` is
`executor.send` applied to `build()`'s result and `check()` is
`executor.check` applied to it. -/
theorem builder_accumulates_and_defers (env : ExtEnv) (conn : Option ConnState)
    (b : Builder) (v p sl tp : Rat) (dev mag pos : Int) (com : String) :
    (∀ bid ask, env.symbolTick b.symbol = some (bid, ask) →
        Builder.marketBuy env b v =
          .ok { b with action := some TRADE_ACTION_DEAL,
                       orderType := some ORDER_TYPE_BUY,
                       volume := v, price := ask }) ∧
    (∀ bid ask, env.symbolTick b.symbol = some (bid, ask) →
        Builder.marketSell env b v pos =
          .ok { b with action := some TRADE_ACTION_DEAL,
                       orderType := some ORDER_TYPE_SELL,
                       volume := v, price := bid, position := pos }) ∧
    (Builder.limitBuy b v p =
      { b with action := some TRADE_ACTION_PENDING,
               orderType := some ORDER_TYPE_BUY_LIMIT,
               volume := v, price := p }) ∧
    (Builder.limitSell b v p =
      { b with action := some TRADE_ACTION_PENDING,
               orderType := some ORDER_TYPE_SELL_LIMIT,
               volume := v, price := p }) ∧
    (Builder.stopBuy b v p =
      { b with action := some TRADE_ACTION_PENDING,
               orderType := some ORDER_TYPE_BUY_STOP,
               volume := v, price := p }) ∧
    (Builder.stopSell b v p =
      { b with action := some TRADE_ACTION_PENDING,
               orderType := some ORDER_TYPE_SELL_STOP,
               volume := v, price := p }) ∧
    (Builder.withSl b sl = { b with sl := sl }) ∧
    (Builder.withTp b tp = { b with tp := tp }) ∧
    (Builder.withSlTp b sl tp = { b with sl := sl, tp := tp }) ∧
    (Builder.withDeviation b dev = { b with deviation := dev }) ∧
    (Builder.withMagic b mag = { b with magic := mag }) ∧
    (Builder.withComment b com = { b with comment := com }) ∧
    (∀ a t, b.action = some a → b.orderType = some t →
      ∃ req, Builder.build env b = .ok req ∧
        keysD req = ["action", "symbol", "volume", "type", "price", "sl",
                     "tp", "deviation", "magic", "comment", "type_time",
                     "type_filling"] ++
                    (if 0 < b.position then ["position"] else []) ∧
        lookupD req "action" = some (.int a) ∧
        lookupD req "symbol" = some (.str b.symbol) ∧
        lookupD req "volume" = some (.rat b.volume) ∧
        lookupD req "type" = some (.int t) ∧
        lookupD req "price" = some (.rat b.price) ∧
        lookupD req "sl" = some (.rat b.sl) ∧
        lookupD req "tp" = some (.rat b.tp) ∧
        lookupD req "deviation" = some (.int b.deviation) ∧
        lookupD req "magic" = some (.int b.magic) ∧
        lookupD req "comment" = some (.str b.comment) ∧
        lookupD req "type_time" = some (.int ORDER_TIME_GTC) ∧
        lookupD req "type_filling" =
          some (.int (Builder.getFillingMode env b.symbol)) ∧
        lookupD req "position" =
          (if 0 < b.position then some (.int b.position) else none)) ∧
    (Builder.sendB env conn b =
      (Builder.build env b).map fun req => executorSend env conn (.dict req)) ∧
    (Builder.checkB env conn b =
      (Builder.build env b).map fun req => executorCheck env conn (.dict req)) := by
  refine ⟨?_, ?_, rfl, rfl, rfl, rfl, rfl, rfl, rfl, rfl, rfl, rfl, ?_, ?_, ?_⟩
  · intro bid ask h
    simp [Builder.marketBuy, h]
  · intro bid ask h
    simp [Builder.marketSell, h]
  · intro a t ha ht
    refine ⟨[("action", .int a), ("symbol", .str b.symbol),
             ("volume", .rat b.volume), ("type", .int t),
             ("price", .rat b.price), ("sl", .rat b.sl),
             ("tp", .rat b.tp), ("deviation", .int b.deviation),
             ("magic", .int b.magic), ("comment", .str b.comment),
             ("type_time", .int ORDER_TIME_GTC),
             ("type_filling", .int (Builder.getFillingMode env b.symbol))] ++
            (if 0 < b.position then [("position", .int b.position)] else []),
            by simp [Builder.build, ha, ht], ?_, ?_⟩
    · by_cases hp : 0 < b.position <;> simp +decide [keysD, hp]
    · by_cases hp : 0 < b.position <;> simp +decide [lookupD, hp]
  · unfold Builder.sendB
    cases Builder.build env b <;> simp [Except.map]
  · unfold Builder.checkB
    cases Builder.build env b <;> simp [Except.map]

/-- **C1 witness.** The theorem applied to a concrete builder chain
`order("EURUSD").market_buy(1/10).with_sl_tp(...)` in an environment with a
tick, with every hypothesis discharged concretely. -/
theorem builder_accumulates_and_defers_witness :
    ∃ req,
      Builder.build
        { symbolTick := fun _ => some (1, 2), symbolInfo := fun _ => none,
          orderSendRes := .retNone, orderCheckRes := .retNone,
          orderCalcMargin := fun _ _ _ _ => .retNone,
          orderCalcProfit := fun _ _ _ _ _ => .retNone,
          accountInfo := none }
        { symbol := "EURUSD", defaultMagic := 0,
          action := some TRADE_ACTION_DEAL, orderType := some ORDER_TYPE_BUY,
          volume := 1/10, price := 2, sl := 1, tp := 3, deviation := 20,
          magic := 0, comment := "", position := 0 } = .ok req ∧
      lookupD req "volume" = some (.rat (1/10)) := by
  have h := builder_accumulates_and_defers
    { symbolTick := fun _ => some (1, 2), symbolInfo := fun _ => none,
      orderSendRes := .retNone, orderCheckRes := .retNone,
      orderCalcMargin := fun _ _ _ _ => .retNone,
      orderCalcProfit := fun _ _ _ _ _ => .retNone,
      accountInfo := none }
    none
    { symbol := "EURUSD", defaultMagic := 0,
      action := some TRADE_ACTION_DEAL, orderType := some ORDER_TYPE_BUY,
      volume := 1/10, price := 2, sl := 1, tp := 3, deviation := 20,
      magic := 0, comment := "", position := 0 }
    (1/10) 2 1 3 20 0 0 ""
  obtain ⟨req, hb, -, -, -, hv, -⟩ :=
    (h.2.2.2.2.2.2.2.2.2.2.2.2.1) TRADE_ACTION_DEAL ORDER_TYPE_BUY rfl rfl
  exact ⟨req, hb, hv⟩

/-- Builders on which an order-type method has run: `build` requires both
the action and the order type to have been recorded. -/
def Builder.ordered (b : Builder) : Prop :=
  b.action.isSome ∧ b.orderType.isSome

/-- **C7.** The builder performs no validation: the pending-order and
`with_*` methods are total and record arbitrary argument values unchanged;
`market_buy`/`market_sell` can only fail because the price tick is
unavailable — whether they raise is independent of the argument values —
and `build()` never raises once any order-type method has been called
(after which the action and order type stay recorded through every
`with_*` call). -/
theorem builder_no_validation (env : ExtEnv) (b : Builder)
    (v v' p sl tp : Rat) (dev mag pos : Int) (com : String) :
    ((∃ r, Builder.marketBuy env b v = .ok r) ↔
      (env.symbolTick b.symbol).isSome) ∧
    ((Builder.marketBuy env b v).isOk = (Builder.marketBuy env b v').isOk) ∧
    ((∃ r, Builder.marketSell env b v pos = .ok r) ↔
      (env.symbolTick b.symbol).isSome) ∧
    ((Builder.marketSell env b v pos).isOk =
      (Builder.marketSell env b v' pos).isOk) ∧
    ((Builder.limitBuy b v p).volume = v ∧ (Builder.limitBuy b v p).price = p) ∧
    ((Builder.limitSell b v p).volume = v ∧
      (Builder.limitSell b v p).price = p) ∧
    ((Builder.stopBuy b v p).volume = v ∧ (Builder.stopBuy b v p).price = p) ∧
    ((Builder.stopSell b v p).volume = v ∧
      (Builder.stopSell b v p).price = p) ∧
    ((Builder.withSl b sl).sl = sl) ∧
    ((Builder.withTp b tp).tp = tp) ∧
    ((Builder.withSlTp b sl tp).sl = sl ∧ (Builder.withSlTp b sl tp).tp = tp) ∧
    ((Builder.withDeviation b dev).deviation = dev) ∧
    ((Builder.withMagic b mag).magic = mag) ∧
    ((Builder.withComment b com).comment = com) ∧
    ((Builder.limitBuy b v p).ordered ∧ (Builder.limitSell b v p).ordered ∧
      (Builder.stopBuy b v p).ordered ∧ (Builder.stopSell b v p).ordered) ∧
    (∀ r, Builder.marketBuy env b v = .ok r → r.ordered) ∧
    (∀ r, Builder.marketSell env b v pos = .ok r → r.ordered) ∧
    (b.ordered →
      (Builder.withSl b sl).ordered ∧ (Builder.withTp b tp).ordered ∧
      (Builder.withSlTp b sl tp).ordered ∧
      (Builder.withDeviation b dev).ordered ∧
      (Builder.withMagic b mag).ordered ∧ (Builder.withComment b com).ordered) ∧
    (b.ordered → ∃ req, Builder.build env b = .ok req) := by
  have tick : ∀ w,
      (∃ r, Builder.marketBuy env b w = .ok r) ↔
        (env.symbolTick b.symbol).isSome := by
    intro w
    unfold Builder.marketBuy
    cases h : env.symbolTick b.symbol with
    | none => simp
    | some t => cases t; simp
  have tickS : ∀ w,
      (∃ r, Builder.marketSell env b w pos = .ok r) ↔
        (env.symbolTick b.symbol).isSome := by
    intro w
    unfold Builder.marketSell
    cases h : env.symbolTick b.symbol with
    | none => simp
    | some t => cases t; simp
  refine ⟨tick v, ?_, tickS v, ?_, ⟨rfl, rfl⟩, ⟨rfl, rfl⟩, ⟨rfl, rfl⟩,
          ⟨rfl, rfl⟩, rfl, rfl, ⟨rfl, rfl⟩, rfl, rfl, rfl, ?_, ?_, ?_, ?_, ?_⟩
  · unfold Builder.marketBuy
    cases env.symbolTick b.symbol with
    | none => rfl
    | some t => cases t; rfl
  · unfold Builder.marketSell
    cases env.symbolTick b.symbol with
    | none => rfl
    | some t => cases t; rfl
  · exact ⟨⟨rfl, rfl⟩, ⟨rfl, rfl⟩, ⟨rfl, rfl⟩, ⟨rfl, rfl⟩⟩
  · intro r h
    unfold Builder.marketBuy at h
    cases ht : env.symbolTick b.symbol with
    | none => rw [ht] at h; cases h
    | some t =>
        obtain ⟨bid, ask⟩ := t
        rw [ht] at h
        cases h
        exact ⟨rfl, rfl⟩
  · intro r h
    unfold Builder.marketSell at h
    cases ht : env.symbolTick b.symbol with
    | none => rw [ht] at h; cases h
    | some t =>
        obtain ⟨bid, ask⟩ := t
        rw [ht] at h
        cases h
        exact ⟨rfl, rfl⟩
  · intro hb
    exact ⟨hb, hb, hb, hb, hb, hb⟩
  · rintro ⟨ha, ht⟩
    obtain ⟨a, ha⟩ := Option.isSome_iff_exists.mp ha
    obtain ⟨t, ht⟩ := Option.isSome_iff_exists.mp ht
    exact ⟨[("action", .int a), ("symbol", .str b.symbol),
            ("volume", .rat b.volume), ("type", .int t),
            ("price", .rat b.price), ("sl", .rat b.sl),
            ("tp", .rat b.tp), ("deviation", .int b.deviation),
            ("magic", .int b.magic), ("comment", .str b.comment),
            ("type_time", .int ORDER_TIME_GTC),
            ("type_filling", .int (Builder.getFillingMode env b.symbol))] ++
           (if 0 < b.position then [("position", .int b.position)] else []),
           by simp [Builder.build, ha, ht]⟩

/-- **C7 witness.** The theorem applied to a concrete builder with an
extreme volume and price, discharging the `ordered` hypotheses on a
concrete post-`limit_buy` state. -/
theorem builder_no_validation_witness :
    ∃ req,
      Builder.build
        { symbolTick := fun _ => none, symbolInfo := fun _ => none,
          orderSendRes := .retNone, orderCheckRes := .retNone,
          orderCalcMargin := fun _ _ _ _ => .retNone,
          orderCalcProfit := fun _ _ _ _ _ => .retNone,
          accountInfo := none }
        (Builder.limitBuy (Builder.mk0 "EURUSD" 0) (-1000000) 0) = .ok req := by
  have h := builder_no_validation
    { symbolTick := fun _ => none, symbolInfo := fun _ => none,
      orderSendRes := .retNone, orderCheckRes := .retNone,
      orderCalcMargin := fun _ _ _ _ => .retNone,
      orderCalcProfit := fun _ _ _ _ _ => .retNone,
      accountInfo := none }
    (Builder.limitBuy (Builder.mk0 "EURUSD" 0) (-1000000) 0)
    0 0 0 0 0 0 0 0 ""
  exact h.2.2.2.2.2.2.2.2.2.2.2.2.2.2.2.2.2.2 ⟨rfl, rfl⟩

/-- `add_account` with a duplicate name: `False`, state untouched. -/
theorem addAccount_dup (env : MgrEnv) (s : MgrState) (name : String)
    (auto : Bool) (h : name ∈ s.accounts) :
    addAccount env s name auto = (s, false) := by
  simp [addAccount, h]

/-- `add_account` when `auto_connect` is set and the client fails to
connect (or raises): `False`, state untouched. -/
theorem addAccount_connFail (env : MgrEnv) (s : MgrState) (name : String)
    (h : name ∉ s.accounts) (hc : env.connectOk name = false) :
    addAccount env s name true = (s, false) := by
  simp [addAccount, h, hc]

/-- `add_account` success: the entry is appended and becomes current when
no current account existed. -/
theorem addAccount_success (env : MgrEnv) (s : MgrState) (name : String)
    (auto : Bool) (h : name ∉ s.accounts)
    (hc : auto = false ∨ env.connectOk name = true) :
    addAccount env s name auto =
      ({ accounts := s.accounts ++ [name],
         currentAccount :=
           match s.currentAccount with
           | none => some name
           | some c => some c }, true) := by
  rcases hc with hc | hc <;> simp [addAccount, h, hc]

/-- `remove_account` of an absent name: `False`, state untouched. -/
theorem removeAccount_absent (s : MgrState) (name : String)
    (h : name ∉ s.accounts) : removeAccount s name = (s, false) := by
  simp [removeAccount, h]

/-- `remove_account` success: the entry is erased; the selection moves to
the first remaining account when the removed one was current. -/
theorem removeAccount_success (s : MgrState) (name : String)
    (h : name ∈ s.accounts) :
    removeAccount s name =
      ({ accounts := s.accounts.erase name,
         currentAccount :=
           if s.currentAccount = some name then (s.accounts.erase name).head?
           else s.currentAccount }, true) := by
  simp [removeAccount, h]

/-- `switch_account` of an absent name: `False`, state untouched. -/
theorem switchAccount_absent (s : MgrState) (name : String)
    (h : name ∉ s.accounts) : switchAccount s name = (s, false) := by
  simp [switchAccount, h]

/-- `switch_account` success. -/
theorem switchAccount_success (s : MgrState) (name : String)
    (h : name ∈ s.accounts) :
    switchAccount s name = ({ s with currentAccount := some name }, true) := by
  simp [switchAccount, h]

/-- The manager invariant holds initially. -/
theorem mgrInv_init : MgrInv MgrState.init := by
  refine ⟨by simp [MgrState.init], ?_, by simp [MgrState.init]⟩
  intro n h
  simp [MgrState.init] at h

/-- One manager call preserves the invariant. -/
theorem mgrInv_step (env : MgrEnv) (s : MgrState) (op : MgrOp)
    (h : MgrInv s) : MgrInv (applyMgrOp env s op) := by
  obtain ⟨hiff, hmem, hnd⟩ := h
  cases op with
  | add name auto =>
      show MgrInv (addAccount env s name auto).1
      by_cases hdup : name ∈ s.accounts
      · rw [addAccount_dup env s name auto hdup]
        exact ⟨hiff, hmem, hnd⟩
      · rcases hca : auto with _ | _
        · rw [addAccount_success env s name false hdup (Or.inl rfl)]
          refine ⟨?_, ?_, ?_⟩
          · cases hc : s.currentAccount <;> simp
          · intro n hn
            cases hc : s.currentAccount with
            | none => simp [hc] at hn; simp [hn]
            | some c =>
                simp [hc] at hn
                cases hn
                exact List.mem_append_left _ (hmem _ hc)
          · refine hnd.append (List.nodup_singleton name) ?_
            intro a ha hb
            rw [List.mem_singleton] at hb
            subst hb
            exact hdup ha
        · rcases hok : env.connectOk name with _ | _
          · rw [addAccount_connFail env s name hdup hok]
            exact ⟨hiff, hmem, hnd⟩
          · rw [addAccount_success env s name true hdup (Or.inr hok)]
            refine ⟨?_, ?_, ?_⟩
            · cases hc : s.currentAccount <;> simp
            · intro n hn
              cases hc : s.currentAccount with
              | none => simp [hc] at hn; simp [hn]
              | some c =>
                  simp [hc] at hn
                  cases hn
                  exact List.mem_append_left _ (hmem _ hc)
            · refine hnd.append (List.nodup_singleton name) ?_
              intro a ha hb
              rw [List.mem_singleton] at hb
              subst hb
              exact hdup ha
  | remove name =>
      show MgrInv (removeAccount s name).1
      by_cases habs : name ∈ s.accounts
      · rw [removeAccount_success s name habs]
        by_cases hcur : s.currentAccount = some name
        · refine ⟨?_, ?_, ?_⟩
          · simp only [hcur, if_pos]
            exact ⟨fun hh => List.head?_eq_none_iff.mp hh,
                   fun hh => by simp [hh]⟩
          · intro n hn
            simp only [hcur, if_pos] at hn
            exact List.mem_of_mem_head? hn
          · exact hnd.erase name
        · refine ⟨?_, ?_, ?_⟩
          · simp only [hcur, if_neg, if_false]
            cases hc : s.currentAccount with
            | none =>
                have : s.accounts = [] := hiff.mp hc
                simp [this] at habs
            | some c =>
                constructor
                · intro hh; cases hh
                · intro hh
                  have hcm : c ∈ s.accounts := hmem c hc
                  have hce : c ∈ s.accounts.erase name := by
                    rw [List.Nodup.mem_erase_iff hnd]
                    exact ⟨fun he => hcur (he ▸ hc), hcm⟩
                  rw [hh] at hce
                  cases hce
          · intro n hn
            simp only [hcur, if_neg, if_false] at hn
            have hcm : n ∈ s.accounts := hmem n hn
            rw [List.Nodup.mem_erase_iff hnd]
            exact ⟨fun he => hcur (he ▸ hn), hcm⟩
          · exact hnd.erase name
      · rw [removeAccount_absent s name habs]
        exact ⟨hiff, hmem, hnd⟩
  | switch name =>
      show MgrInv (switchAccount s name).1
      by_cases habs : name ∈ s.accounts
      · rw [switchAccount_success s name habs]
        refine ⟨?_, ?_, ?_⟩
        · constructor
          · intro hh; cases hh
          · intro hh
            rw [hh] at habs
            cases habs
        · intro n hn
          cases hn
          exact habs
        · exact hnd
      · rw [switchAccount_absent s name habs]
        exact ⟨hiff, hmem, hnd⟩

/-- **C9.** In every state of the account manager reachable from a fresh
manager by any sequence of `add_account`, `remove_account` and
`switch_account` calls, the current account is `None` exactly when the
table is empty, the current account (when set) is a key of the table, and
the table has no duplicate names. -/
theorem mgr_invariant_reachable (env : MgrEnv) (ops : List MgrOp) :
    MgrInv (runMgr env ops) := by
  suffices h : ∀ s, MgrInv s → MgrInv (ops.foldl (applyMgrOp env) s) by
    exact h MgrState.init mgrInv_init
  induction ops with
  | nil => intro s hs; exact hs
  | cons op rest ih =>
      intro s hs
      exact ih _ (mgrInv_step env s op hs)

/-- **C8.** Failed manager operations leave the state unchanged and the
mutex-guarded update of a successful `remove_account` deletes exactly the
named entry: `add_account` with a present name returns `False` touching
neither the table nor the selection (likewise when auto-connect fails);
`remove_account` with an absent name returns `False` and changes nothing;
a successful `remove_account` removes exactly the named key and, when it
was current, moves the selection to a remaining account or to `None` when
none remain. -/
theorem mgr_failed_ops_leave_state (env : MgrEnv) (s : MgrState)
    (name : String) (auto : Bool) (hinv : MgrInv s) :
    (name ∈ s.accounts → addAccount env s name auto = (s, false)) ∧
    (name ∉ s.accounts → env.connectOk name = false →
      addAccount env s name true = (s, false)) ∧
    (name ∉ s.accounts → removeAccount s name = (s, false)) ∧
    (name ∈ s.accounts →
      (removeAccount s name).2 = true ∧
      name ∉ (removeAccount s name).1.accounts ∧
      (∀ m, m ≠ name →
        (m ∈ (removeAccount s name).1.accounts ↔ m ∈ s.accounts)) ∧
      (s.currentAccount = some name →
        ((removeAccount s name).1.accounts = [] ∧
          (removeAccount s name).1.currentAccount = none) ∨
        (∃ m, (removeAccount s name).1.currentAccount = some m ∧
          m ∈ (removeAccount s name).1.accounts)) ∧
      (s.currentAccount ≠ some name →
        (removeAccount s name).1.currentAccount = s.currentAccount)) := by
  obtain ⟨hiff, hmem, hnd⟩ := hinv
  refine ⟨fun h => addAccount_dup env s name auto h,
          fun h hc => addAccount_connFail env s name h hc,
          fun h => removeAccount_absent s name h, ?_⟩
  intro h
  rw [removeAccount_success s name h]
  refine ⟨rfl, ?_, ?_, ?_, ?_⟩
  · intro hmm
    exact (List.Nodup.mem_erase_iff hnd).mp hmm |>.1 rfl
  · intro m hm
    constructor
    · intro hmm
      exact ((List.Nodup.mem_erase_iff hnd).mp hmm).2
    · intro hmm
      exact (List.Nodup.mem_erase_iff hnd).mpr ⟨hm, hmm⟩
  · intro hcur
    simp only [hcur, if_pos]
    cases he : (s.accounts.erase name).head? with
    | none => exact Or.inl ⟨List.head?_eq_none_iff.mp he, rfl⟩
    | some m => exact Or.inr ⟨m, rfl, List.mem_of_mem_head? he⟩
  · intro hcur
    simp only [hcur, if_neg, if_false]

/-- **C8 witness.** The theorem applied to the concrete reachable state
with accounts `["a", "b"]` and current account `"a"`, removing `"a"`. -/
theorem mgr_failed_ops_leave_state_witness :
    MgrInv { accounts := ["a", "b"], currentAccount := some "a" } ∧
    (removeAccount { accounts := ["a", "b"], currentAccount := some "a" }
        "a").1 = { accounts := ["b"], currentAccount := some "b" } ∧
    (addAccount ⟨fun _ => true⟩
        { accounts := ["a", "b"], currentAccount := some "a" } "a" true =
      ({ accounts := ["a", "b"], currentAccount := some "a" }, false)) := by
  have hinv : MgrInv { accounts := ["a", "b"], currentAccount := some "a" } := by
    refine ⟨by simp, ?_, by simp⟩
    intro n hn
    cases hn
    simp
  have h := mgr_failed_ops_leave_state ⟨fun _ => true⟩
    { accounts := ["a", "b"], currentAccount := some "a" } "a" true hinv
  refine ⟨hinv, ?_, h.1 (by simp)⟩
  have h4 := h.2.2.2 (by simp)
  rw [removeAccount_success _ _ (by simp)]
  simp [List.erase]

/-- **C6 counterexample.** `get_account_info` does not inject any derived
datetime field: with the external account record holding the positive
integer timestamp field `"time"`, the returned dict is exactly the
record's own fields and has no `"time_dt"` companion — contradicting the
claim that the conversion injects derived datetime fields from the
record's integer timestamps. -/
theorem getAccountInfo_no_datetime_injection :
    getAccountInfo
        { symbolTick := fun _ => none, symbolInfo := fun _ => none,
          orderSendRes := .retNone, orderCheckRes := .retNone,
          orderCalcMargin := fun _ _ _ _ => .retNone,
          orderCalcProfit := fun _ _ _ _ _ => .retNone,
          accountInfo := some [("login", .int 1), ("time", .int 1704067200)] }
        { connected := true, loginV := none, serverV := none } =
      some [("login", .int 1), ("time", .int 1704067200)] ∧
    (getAccountInfo
        { symbolTick := fun _ => none, symbolInfo := fun _ => none,
          orderSendRes := .retNone, orderCheckRes := .retNone,
          orderCalcMargin := fun _ _ _ _ => .retNone,
          orderCalcProfit := fun _ _ _ _ _ => .retNone,
          accountInfo := some [("login", .int 1), ("time", .int 1704067200)] }
        { connected := true, loginV := none, serverV := none }).map
      (fun d => hasKey d "time_dt") = some false := by
  exact ⟨rfl, rfl⟩

/-- **C6 (amended).** `get_account_info` returns `None` (without touching
the external API — the result is the same in every environment) whenever
the connection reports disconnected; when connected it returns the single
external account query's record converted to a plain dict of exactly its
own fields (no datetime injection), or `None` when the query returns
`None`. -/
theorem getAccountInfo_thin_passthrough (env : ExtEnv) (conn : ConnState) :
    (conn.connected = false →
      getAccountInfo env conn = none ∧
      ∀ env', getAccountInfo env conn = getAccountInfo env' conn) ∧
    (conn.connected = true → getAccountInfo env conn = env.accountInfo) := by
  constructor
  · intro h
    refine ⟨by simp [getAccountInfo, h], ?_⟩
    intro env'
    simp [getAccountInfo, h]
  · intro h
    cases ha : env.accountInfo <;> simp [getAccountInfo, h, ha]

/-- **C6 (amended) witness.** The amended theorem applied to a connected
state and a concrete one-field account record. -/
theorem getAccountInfo_thin_passthrough_witness :
    getAccountInfo
        { symbolTick := fun _ => none, symbolInfo := fun _ => none,
          orderSendRes := .retNone, orderCheckRes := .retNone,
          orderCalcMargin := fun _ _ _ _ => .retNone,
          orderCalcProfit := fun _ _ _ _ _ => .retNone,
          accountInfo := some [("balance", .rat 1000)] }
        { connected := true, loginV := none, serverV := none } =
      some [("balance", .rat 1000)] := by
  exact (getAccountInfo_thin_passthrough
    { symbolTick := fun _ => none, symbolInfo := fun _ => none,
      orderSendRes := .retNone, orderCheckRes := .retNone,
      orderCalcMargin := fun _ _ _ _ => .retNone,
      orderCalcProfit := fun _ _ _ _ _ => .retNone,
      accountInfo := some [("balance", .rat 1000)] }
    { connected := true, loginV := none, serverV := none }).2 rfl

/-- **C5 counterexample.** `calc_position_size` is a calculation method of
`MT5Calculator` whose numeric result is not the float of its single
external call: with the external `order_calc_profit` returning `-50` for
one lot and a risk amount of `100`, it returns `2` (its own division and
rounding arithmetic), not `-50` — refuting the claim that every
calculation method converts the result of its single external call and
performs no arithmetic of its own on it. -/
theorem calcPositionSize_own_arithmetic :
    calcPositionSize
        { symbolTick := fun _ => none, symbolInfo := fun _ => none,
          orderSendRes := .retNone, orderCheckRes := .retNone,
          orderCalcMargin := fun _ _ _ _ => .retNone,
          orderCalcProfit := fun _ _ _ _ _ => .val (-50),
          accountInfo := none }
        true "EURUSD" 100 (11/10) (21/20) "buy" = some 2 ∧
    ({ symbolTick := fun _ => none, symbolInfo := fun _ => none,
       orderSendRes := .retNone, orderCheckRes := .retNone,
       orderCalcMargin := fun _ _ _ _ => .retNone,
       orderCalcProfit := fun _ _ _ _ _ => .val (-50),
       accountInfo := none } : ExtEnv).orderCalcProfit
        ORDER_TYPE_BUY "EURUSD" 1 (11/10) (21/20) = .val (-50) ∧
    (2 : Rat) ≠ -50 := by
  refine ⟨?_, rfl, by norm_num⟩
  have h1 : calcProfit
      { symbolTick := fun _ => none, symbolInfo := fun _ => none,
        orderSendRes := .retNone, orderCheckRes := .retNone,
        orderCalcMargin := fun _ _ _ _ => .retNone,
        orderCalcProfit := fun _ _ _ _ _ => .val (-50),
        accountInfo := none }
      true "EURUSD" 1 (11/10) (21/20) "buy" = some (-50) := by
    simp [calcProfit, show strLower "buy" = "buy" from rfl]
  have habs : |(-50 : Rat)| = 50 := by norm_num
  have h2 : pyRound2 (2 : Rat) = 2 := by
    have hm : (2 : Rat) * 100 = 200 := by norm_num
    have hf : ratFloor (200 : Rat) = 200 := by
      rw [ratFloor_eq_floor]
      norm_num
    simp only [pyRound2, pyRound, hm, hf]
    norm_num
  simp only [calcPositionSize, h1, habs]
  norm_num [h2]

/-- **C5 (amended).** `calc_margin` and `calc_profit` are single-call
delegations to the external engine: they return `None` when disconnected,
on an invalid action string, when no price can be resolved, and when the
external call yields `None` or raises; any numeric result is exactly the
value of the one external calculation call, with no arithmetic applied.
(`calc_position_size` and `calc_risk_reward` do perform arithmetic of
their own, see the counterexample.) -/
theorem calc_margin_profit_single_call (env : ExtEnv) (connected : Bool)
    (symbol action : String) (volume priceOpen priceClose : Rat)
    (price : Option Rat) :
    (connected = false →
      calcMargin env connected symbol volume action price = none ∧
      calcProfit env connected symbol volume priceOpen priceClose action =
        none) ∧
    (getOrderType action = none →
      calcMargin env connected symbol volume action price = none) ∧
    (strLower action ≠ "buy" → strLower action ≠ "sell" →
      calcProfit env connected symbol volume priceOpen priceClose action =
        none) ∧
    (price = none → env.symbolTick symbol = none →
      calcMargin env connected symbol volume action price = none) ∧
    ((∀ ot pr, env.orderCalcMargin ot symbol volume pr = .retNone ∨
               env.orderCalcMargin ot symbol volume pr = .exn) →
      calcMargin env connected symbol volume action price = none) ∧
    (∀ m, calcMargin env connected symbol volume action price = some m →
      ∃ ot pr, getOrderType action = some ot ∧
        env.orderCalcMargin ot symbol volume pr = .val m) ∧
    (∀ p, calcProfit env connected symbol volume priceOpen priceClose action =
        some p →
      ∃ ot, (ot = ORDER_TYPE_BUY ∨ ot = ORDER_TYPE_SELL) ∧
        env.orderCalcProfit ot symbol volume priceOpen priceClose = .val p) := by
  refine ⟨?_, ?_, ?_, ?_, ?_, ?_, ?_⟩
  · intro h
    exact ⟨by simp [calcMargin, h], by simp [calcProfit, h]⟩
  · intro h
    cases hc : connected <;> simp [calcMargin, h, hc]
  · intro h1 h2
    cases hc : connected <;> simp [calcProfit, h1, h2, hc]
  · intro hp ht
    cases hc : connected
    · simp [calcMargin, hc]
    · cases hot : getOrderType action <;> simp [calcMargin, hc, hot, hp, ht]
  · intro hall
    cases hc : connected
    · simp [calcMargin, hc]
    · cases hot : getOrderType action with
      | none => simp [calcMargin, hc, hot]
      | some ot =>
          cases hp : price with
          | some pr =>
              rcases hall ot pr with h | h <;>
                simp [calcMargin, hc, hot, hp, h]
          | none =>
              cases ht : env.symbolTick symbol with
              | none => simp [calcMargin, hc, hot, hp, ht]
              | some t =>
                  obtain ⟨bid, ask⟩ := t
                  by_cases ha : action = "buy" ∨ action = "buy_limit" ∨
                      action = "buy_stop"
                  · rcases hall ot ask with h | h <;>
                      simp [calcMargin, hc, hot, hp, ht, ha, h]
                  · rcases hall ot bid with h | h <;>
                      simp [calcMargin, hc, hot, hp, ht, ha, h]
  · intro m hm
    cases hc : connected
    · simp [calcMargin, hc] at hm
    · cases hot : getOrderType action with
      | none => simp [calcMargin, hc, hot] at hm
      | some ot =>
          refine ⟨ot, ?_⟩
          cases hp : price with
          | some pr =>
              cases hco : env.orderCalcMargin ot symbol volume pr <;>
                simp [calcMargin, hc, hot, hp, hco] at hm
              exact ⟨pr, rfl, hm ▸ hco⟩
          | none =>
              cases ht : env.symbolTick symbol with
              | none => simp [calcMargin, hc, hot, hp, ht] at hm
              | some t =>
                  obtain ⟨bid, ask⟩ := t
                  by_cases ha : action = "buy" ∨ action = "buy_limit" ∨
                      action = "buy_stop"
                  · cases hco : env.orderCalcMargin ot symbol volume ask <;>
                      simp [calcMargin, hc, hot, hp, ht, ha, hco] at hm
                    exact ⟨ask, rfl, hm ▸ hco⟩
                  · cases hco : env.orderCalcMargin ot symbol volume bid <;>
                      simp [calcMargin, hc, hot, hp, ht, ha, hco] at hm
                    exact ⟨bid, rfl, hm ▸ hco⟩
  · intro p hp
    cases hc : connected
    · simp [calcProfit, hc] at hp
    · by_cases hb : strLower action = "buy"
      · refine ⟨ORDER_TYPE_BUY, Or.inl rfl, ?_⟩
        cases hco : env.orderCalcProfit ORDER_TYPE_BUY symbol volume
            priceOpen priceClose <;>
          simp [calcProfit, hc, hb, hco] at hp
        rw [← hp]
      · by_cases hs : strLower action = "sell"
        · refine ⟨ORDER_TYPE_SELL, Or.inr rfl, ?_⟩
          cases hco : env.orderCalcProfit ORDER_TYPE_SELL symbol volume
              priceOpen priceClose <;>
            simp [calcProfit, hc, hb, hs, hco] at hp
          rw [← hp]
        · simp [calcProfit, hc, hb, hs] at hp

/-- **C5 (amended) witness.** The delegation conjunct applied to a
concrete environment whose margin engine returns `50`: the hypothesis
`calc_margin = some 50` is discharged by evaluation. -/
theorem calc_margin_profit_single_call_witness :
    ∃ ot pr, getOrderType "buy" = some ot ∧
      ({ symbolTick := fun _ => none, symbolInfo := fun _ => none,
         orderSendRes := .retNone, orderCheckRes := .retNone,
         orderCalcMargin := fun _ _ _ _ => .val 50,
         orderCalcProfit := fun _ _ _ _ _ => .retNone,
         accountInfo := none } : ExtEnv).orderCalcMargin
        ot "EURUSD" 1 pr = .val 50 := by
  exact (calc_margin_profit_single_call
    { symbolTick := fun _ => none, symbolInfo := fun _ => none,
      orderSendRes := .retNone, orderCheckRes := .retNone,
      orderCalcMargin := fun _ _ _ _ => .val 50,
      orderCalcProfit := fun _ _ _ _ _ => .retNone,
      accountInfo := none }
    true "EURUSD" "buy" 1 0 0 (some (11/10))).2.2.2.2.2.1 50 (by decide)

/-- Appending the same suffix to different strings gives different
strings. -/
theorem append_suffix_cancel (f g s : String) (h : f ++ s = g ++ s) :
    f = g := by
  have hd : f.data ++ s.data = g.data ++ s.data := by
    have := congrArg String.data h
    simpa using this
  cases f
  cases g
  exact congrArg String.mk (List.append_cancel_right hd)

/-- **C10 counterexample.** `add_datetime_fields` can overwrite a
pre-existing key: on `{"time": 5, "time_dt": 7}` with time field `"time"`,
the pre-existing `"time_dt"` entry is replaced by the derived datetime, so
it is not the case that every pre-existing key keeps its original value
(nor that a new key is added for `"time"`). -/
theorem addDatetimeFields_overwrites :
    addDatetimeFields [("time", .int 5), ("time_dt", .int 7)] ["time"]
        "_dt" = some [("time", .int 5), ("time_dt", .dt 5)] ∧
    lookupD [("time", .int 5), ("time_dt", .int 7)] "time_dt" =
      some (.int 7) ∧
    (∀ d,
      addDatetimeFields [("time", .int 5), ("time_dt", .int 7)] ["time"]
          "_dt" = some d →
      lookupD d "time_dt" ≠ some (.int 7)) := by
  have h : addDatetimeFields [("time", .int 5), ("time_dt", .int 7)]
      ["time"] "_dt" = some [("time", .int 5), ("time_dt", .dt 5)] := by
    have hts : dtValue "time" (.int 5) = 5 := by
      simp only [dtValue, pyToRat]
      rw [if_neg]
      · norm_num
      · rintro (hcond | hcond)
        · exact absurd hcond (by decide)
        · norm_num at hcond
    simp [addDatetimeFields, lookupD, setD, pyTruthy, pyGtZero, hts]
  refine ⟨h, rfl, ?_⟩
  intro d hd
  rw [h] at hd
  injection hd with hd
  subst hd
  intro hc
  simp [lookupD] at hc

/-- **C10 (amended).** `add_datetime_fields` changes its input dict only
at companion keys: a `None` input is returned as `None`; provided the
listed fields hold numbers where truthy (no `TypeError`) and no companion
name `field + suffix` is itself a listed field, the call succeeds, every
key that is no listed field's companion keeps its original value, and for
each listed field: when it is present with a truthy value `> 0` its
companion holds the derived UTC datetime (added, or overwriting a
pre-existing entry of that name), otherwise its companion entry is left
exactly as it was. -/
theorem addDatetimeFields_frame (data : PyDict) (fields : List String)
    (suffix : String)
    (hnum : ∀ f, f ∈ fields → ∀ v, lookupD data f = some v →
      pyTruthy v = true → (pyGtZero v).isSome)
    (hnc : ∀ f, f ∈ fields → ∀ g, g ∈ fields → f ++ suffix ≠ g) :
    addDatetimeFieldsOpt none fields suffix = some none ∧
    ∃ out, addDatetimeFields data fields suffix = some out ∧
      (∀ k, (∀ f, f ∈ fields → k ≠ f ++ suffix) →
        lookupD out k = lookupD data k) ∧
      (∀ f, f ∈ fields →
        (∃ v, lookupD data f = some v ∧ tsApplicable v = true ∧
          lookupD out (f ++ suffix) = some (.dt (dtValue f v))) ∨
        ((∀ v, lookupD data f = some v → tsApplicable v = false) ∧
          lookupD out (f ++ suffix) = lookupD data (f ++ suffix))) := by
  refine ⟨rfl, ?_⟩
  induction fields generalizing data with
  | nil =>
      exact ⟨data, rfl, fun k _ => rfl, fun f hf => absurd hf (by simp)⟩
  | cons f rest ih =>
      have hf0 : f ∈ f :: rest := List.mem_cons_self f rest
      have hnumR : ∀ g, g ∈ rest → ∀ v, lookupD data g = some v →
          pyTruthy v = true → (pyGtZero v).isSome :=
        fun g hg v hv ht => hnum g (List.mem_cons_of_mem f hg) v hv ht
      have hncR : ∀ g, g ∈ rest → ∀ g', g' ∈ rest → g ++ suffix ≠ g' :=
        fun g hg g' hg' =>
          hnc g (List.mem_cons_of_mem f hg) g' (List.mem_cons_of_mem f hg')
      -- the three skip cases share one argument, parameterized by the
      -- proof that the head field is not converted
      have skipCase : ∀ (heq : addDatetimeFields data (f :: rest) suffix =
            addDatetimeFields data rest suffix)
          (hskip : ∀ v, lookupD data f = some v → tsApplicable v = false),
          ∃ out, addDatetimeFields data (f :: rest) suffix = some out ∧
            (∀ k, (∀ g, g ∈ f :: rest → k ≠ g ++ suffix) →
              lookupD out k = lookupD data k) ∧
            (∀ g, g ∈ f :: rest →
              (∃ v, lookupD data g = some v ∧ tsApplicable v = true ∧
                lookupD out (g ++ suffix) = some (.dt (dtValue g v))) ∨
              ((∀ v, lookupD data g = some v → tsApplicable v = false) ∧
                lookupD out (g ++ suffix) = lookupD data (g ++ suffix))) := by
        intro heq hskip
        obtain ⟨out, hout, hframe, hcomp⟩ := ih data hnumR hncR
        refine ⟨out, heq.trans hout, ?_, ?_⟩
        · intro k hk
          exact hframe k (fun g hg => hk g (List.mem_cons_of_mem f hg))
        · intro g hg
          rcases List.mem_cons.mp hg with rfl | hg'
          · by_cases hfr : g ∈ rest
            · rcases hcomp g hfr with ⟨v, hv, happ, _⟩ | ⟨_, hout2⟩
              · rw [hskip v hv] at happ
                cases happ
              · exact Or.inr ⟨hskip, hout2⟩
            · refine Or.inr ⟨hskip, ?_⟩
              refine hframe (g ++ suffix) ?_
              intro g' hg' he
              exact hfr (append_suffix_cancel g g' suffix he ▸ hg')
          · exact hcomp g hg'
      cases hl : lookupD data f with
      | none =>
          refine skipCase (by simp [addDatetimeFields, hl]) ?_
          intro v hv
          rw [hl] at hv
          cases hv
      | some v =>
          by_cases htr : pyTruthy v = true
          · have hgz := hnum f hf0 v hl htr
            cases hgb : pyGtZero v with
            | none => rw [hgb] at hgz; cases hgz
            | some b =>
                cases b with
                | false =>
                    refine skipCase
                      (by simp [addDatetimeFields, hl, htr, hgb]) ?_
                    intro v' hv'
                    rw [hl] at hv'
                    injection hv' with hv'
                    subst hv'
                    simp [tsApplicable, htr, hgb]
                | true =>
                    have happv : tsApplicable v = true := by
                      simp [tsApplicable, htr, hgb]
                    have hd'g : ∀ g, g ∈ f :: rest →
                        lookupD (setD data (f ++ suffix)
                          (.dt (dtValue f v))) g = lookupD data g :=
                      fun g hg =>
                        lookupD_setD_ne data (f ++ suffix) g _ (hnc f hf0 g hg)
                    obtain ⟨out, hout, hframe, hcomp⟩ :=
                      ih (setD data (f ++ suffix) (.dt (dtValue f v)))
                        (fun g hg v' hv' ht' => hnumR g hg v'
                          (by rw [← hd'g g (List.mem_cons_of_mem f hg)]
                              exact hv') ht')
                        hncR
                    have heq : addDatetimeFields data (f :: rest) suffix =
                        addDatetimeFields
                          (setD data (f ++ suffix) (.dt (dtValue f v)))
                          rest suffix := by
                      simp [addDatetimeFields, hl, htr, hgb]
                    refine ⟨out, heq.trans hout, ?_, ?_⟩
                    · intro k hk
                      rw [hframe k (fun g hg => hk g (List.mem_cons_of_mem f hg))]
                      exact lookupD_setD_ne data (f ++ suffix) k _
                        (fun he => hk f hf0 he.symm)
                    · intro g hg
                      have hcompHead : g = f →
                          lookupD out (g ++ suffix) =
                            some (.dt (dtValue f v)) := by
                        rintro rfl
                        by_cases hfr : g ∈ rest
                        · rcases hcomp g hfr with ⟨v', hv', _, hout2⟩ |
                            ⟨hnone, _⟩
                          · rw [hd'g g hf0, hl] at hv'
                            injection hv' with hv'
                            subst hv'
                            exact hout2
                          · exfalso
                            have hfa := hnone v
                              (by rw [hd'g g hf0]; exact hl)
                            rw [happv] at hfa
                            cases hfa
                        · rw [hframe (g ++ suffix) ?_]
                          · exact lookupD_setD_self data (g ++ suffix) _
                          · intro g' hg' he
                            exact hfr
                              (append_suffix_cancel g g' suffix he ▸ hg')
                      rcases List.mem_cons.mp hg with rfl | hg'
                      · exact Or.inl ⟨v, hl, happv, hcompHead rfl⟩
                      · by_cases hgf : g = f
                        · subst hgf
                          exact Or.inl ⟨v, hl, happv, hcompHead rfl⟩
                        · rcases hcomp g hg' with ⟨v', hv', happ, hout2⟩ |
                            ⟨hnone, hout2⟩
                          · refine Or.inl ⟨v', ?_, happ, hout2⟩
                            rw [← hd'g g (List.mem_cons_of_mem f hg')]
                            exact hv'
                          · refine Or.inr ⟨?_, ?_⟩
                            · intro v' hv'
                              refine hnone v' ?_
                              rw [hd'g g (List.mem_cons_of_mem f hg')]
                              exact hv'
                            · rw [hout2]
                              exact lookupD_setD_ne data (f ++ suffix)
                                (g ++ suffix) _ (fun he => hgf
                                  ((append_suffix_cancel f g suffix he).symm))
          · refine skipCase ?_ ?_
            · have htr' : pyTruthy v = false := by
                revert htr
                cases pyTruthy v <;> simp
              simp [addDatetimeFields, hl, htr']
            · intro v' hv'
              rw [hl] at hv'
              injection hv' with hv'
              subst hv'
              simp [tsApplicable]
              intro hcontra
              exact absurd hcontra htr

/-- **C10 (amended) witness.** The frame theorem applied to the concrete
dict `{"time": 2}` with time field list `["time"]`, discharging the
numeric-value and no-cascading hypotheses concretely. -/
theorem addDatetimeFields_frame_witness :
    addDatetimeFieldsOpt none ["time"] "_dt" = some none ∧
    ∃ out, addDatetimeFields [("time", .int 2)] ["time"] "_dt" = some out ∧
      (∀ k, (∀ f, f ∈ ["time"] → k ≠ f ++ "_dt") →
        lookupD out k = lookupD [("time", .int 2)] k) ∧
      (∀ f, f ∈ ["time"] →
        (∃ v, lookupD [("time", .int 2)] f = some v ∧
          tsApplicable v = true ∧
          lookupD out (f ++ "_dt") = some (.dt (dtValue f v))) ∨
        ((∀ v, lookupD [("time", .int 2)] f = some v →
            tsApplicable v = false) ∧
          lookupD out (f ++ "_dt") =
            lookupD [("time", .int 2)] (f ++ "_dt"))) := by
  refine addDatetimeFields_frame [("time", .int 2)] ["time"] "_dt" ?_ ?_
  · intro f hf v hv htr
    simp at hf
    subst hf
    simp [lookupD] at hv
    subst hv
    rfl
  · intro f hf g hg
    simp at hf hg
    subst hf
    subst hg
    decide

/-- **C3.** `MT5Executor.send` translates every failure into a logged
warning or a typed exception: it returns `None` without calling the
external API (the result does not depend on the environment) when the
`connection` attribute is missing or reports disconnected; it raises
`MT5ValidationError` when the request is not a dict; it raises
`MT5OrderError` when the external `order_send` returns `None` or raises;
and on a result record it returns the record as a plain dict with derived
datetime fields attached, never raising, logging warnings exactly when the
retcode differs from `TRADE_RETCODE_DONE`. -/
theorem executorSend_error_translation (env : ExtEnv)
    (conn : Option ConnState) (request : PyVal) :
    (conn = none →
      (executorSend env conn request).result = .ok none ∧
      ∀ env', executorSend env conn request = executorSend env' conn request) ∧
    (∀ c, conn = some c → c.connected = false →
      (executorSend env conn request).result = .ok none ∧
      ∀ env', executorSend env conn request = executorSend env' conn request) ∧
    (∀ c, conn = some c → c.connected = true → (∀ d, request ≠ .dict d) →
      (executorSend env conn request).result = .error .mt5ValidationError) ∧
    (∀ c d, conn = some c → c.connected = true → request = .dict d →
      (env.orderSendRes = .retNone ∨ env.orderSendRes = .exn) →
      (executorSend env conn request).result = .error .mt5OrderError) ∧
    (∀ c d rec rc out, conn = some c → c.connected = true →
      request = .dict d → env.orderSendRes = .ok rec →
      lookupD rec "retcode" = some rc →
      addDatetimeFields (convertNestedRequest rec)
        ["time", "time_setup", "time_expiration", "time_done"] "_dt" =
        some out →
      (executorSend env conn request).result = .ok (some out) ∧
      ((executorSend env conn request).warnings = 2 ↔
        pyNeInt rc TRADE_RETCODE_DONE = true) ∧
      ((executorSend env conn request).warnings = 0 ↔
        pyNeInt rc TRADE_RETCODE_DONE = false)) := by
  refine ⟨?_, ?_, ?_, ?_, ?_⟩
  · rintro rfl
    exact ⟨rfl, fun env' => rfl⟩
  · rintro c rfl hdis
    exact ⟨by simp [executorSend, hdis], fun env' => by
      simp [executorSend, hdis]⟩
  · rintro c rfl hcon hnd
    cases request with
    | dict d => exact absurd rfl (hnd d)
    | int n => simp [executorSend, hcon]
    | rat q => simp [executorSend, hcon]
    | str s => simp [executorSend, hcon]
    | dt t => simp [executorSend, hcon]
    | tup l => simp [executorSend, hcon]
  · rintro c d rfl hcon rfl hfail
    rcases hfail with hfail | hfail <;>
      simp [executorSend, executorSend.executorSendBody, hcon, hfail]
  · rintro c d rec rc out rfl hcon rfl hok hrc hadd
    have hbody : executorSend env (some c) (.dict d) =
        executorSend.executorSendBody env d := by
      simp [executorSend, hcon]
    by_cases hne : pyNeInt rc TRADE_RETCODE_DONE = true
    · rw [hbody]
      simp [executorSend.executorSendBody, hok, hrc, hadd, hne]
    · have hne' : pyNeInt rc TRADE_RETCODE_DONE = false := by
        revert hne
        cases pyNeInt rc TRADE_RETCODE_DONE <;> simp
      rw [hbody]
      simp [executorSend.executorSendBody, hok, hrc, hadd, hne']

/-- **C3 witness.** The theorem applied to a concrete connected executor
whose external `order_send` returns a record with retcode
`TRADE_RETCODE_DONE`, all hypotheses discharged by evaluation. -/
theorem executorSend_error_translation_witness :
    (executorSend
        { symbolTick := fun _ => none, symbolInfo := fun _ => none,
          orderSendRes := .ok [("retcode", .int 10009)],
          orderCheckRes := .retNone,
          orderCalcMargin := fun _ _ _ _ => .retNone,
          orderCalcProfit := fun _ _ _ _ _ => .retNone,
          accountInfo := none }
        (some { connected := true, loginV := none, serverV := none })
        (.dict [])).result = .ok (some [("retcode", .int 10009)]) ∧
    (executorSend
        { symbolTick := fun _ => none, symbolInfo := fun _ => none,
          orderSendRes := .ok [("retcode", .int 10009)],
          orderCheckRes := .retNone,
          orderCalcMargin := fun _ _ _ _ => .retNone,
          orderCalcProfit := fun _ _ _ _ _ => .retNone,
          accountInfo := none }
        (some { connected := true, loginV := none, serverV := none })
        (.dict [])).warnings = 0 := by
  have h := (executorSend_error_translation
    { symbolTick := fun _ => none, symbolInfo := fun _ => none,
      orderSendRes := .ok [("retcode", .int 10009)],
      orderCheckRes := .retNone,
      orderCalcMargin := fun _ _ _ _ => .retNone,
      orderCalcProfit := fun _ _ _ _ _ => .retNone,
      accountInfo := none }
    (some { connected := true, loginV := none, serverV := none })
    (.dict [])).2.2.2.2
    { connected := true, loginV := none, serverV := none } []
    [("retcode", .int 10009)] (.int 10009) [("retcode", .int 10009)]
    rfl rfl rfl rfl rfl rfl
  exact ⟨h.1, h.2.2.mpr rfl⟩

/-- The index of the first successful attempt among
`i, i+1, ..., i+fuel-1`, if any. -/
def firstOkAux (env : InitEnv) : Nat → Nat → Option Nat
  | _, 0 => none
  | i, fuel + 1 =>
      if env.attemptRes i = .ok then some i else firstOkAux env (i + 1) fuel

/-- How many external initialization calls the claim predicts, starting at
attempt `i` with `fuel` attempts available: up to and including the first
success, and all `fuel` otherwise. -/
def initCallsFrom (env : InitEnv) (i fuel : Nat) : Nat :=
  match firstOkAux env i fuel with
  | some k => k + 1 - i
  | none => fuel

/-- What the claim predicts between attempt `i` and the next event: nothing
after a success; spawning the terminal and the fixed 5-second wait (and no
`retry_delay` sleep) when the first attempt fails with error `-10001` and
a path was given; otherwise the fixed `retry_delay` sleep unless this was
the last attempt. -/
def initGapSpec (env : InitEnv) (pathGiven : Bool) (retry i : Nat) :
    List InitEv :=
  if env.attemptRes i = .ok then []
  else if env.attemptRes i = .fail (-10001) ∧ pathGiven ∧ i = 0 then
    [.spawnTerminal, .sleepStart]
  else if i < retry - 1 then [.sleepRetry] else []

/-- The event trace the claim predicts for a full `initialize` run. -/
def initTraceSpec (env : InitEnv) (pathGiven : Bool) (retry : Nat) :
    List InitEv :=
  (List.range' 0 (initCallsFrom env 0 retry)).flatMap
    fun i => .callInit i :: initGapSpec env pathGiven retry i

/-- The number of external initialization calls in a trace. -/
def countCalls (t : List InitEv) : Nat :=
  t.countP fun e => match e with | .callInit _ => true | _ => false

/-- `firstOkAux` returns an index at or after its start. -/
theorem firstOkAux_ge (env : InitEnv) :
    ∀ fuel i k, firstOkAux env i fuel = some k → i ≤ k := by
  intro fuel
  induction fuel with
  | zero => intro i k h; cases h
  | succ fuel ih =>
      intro i k h
      by_cases hok : env.attemptRes i = .ok
      · simp [firstOkAux, hok] at h
        omega
      · simp [firstOkAux, hok] at h
        have := ih (i + 1) k h
        omega

/-- `firstOkAux` returns an index within its fuel window. -/
theorem firstOkAux_lt (env : InitEnv) :
    ∀ fuel i k, firstOkAux env i fuel = some k → k < i + fuel := by
  intro fuel
  induction fuel with
  | zero => intro i k h; cases h
  | succ fuel ih =>
      intro i k h
      by_cases hok : env.attemptRes i = .ok
      · simp [firstOkAux, hok] at h
        omega
      · simp [firstOkAux, hok] at h
        have := ih (i + 1) k h
        omega

/-- One failed attempt consumes one predicted call. -/
theorem initCallsFrom_step (env : InitEnv) (i fuel : Nat)
    (h : env.attemptRes i ≠ .ok) :
    initCallsFrom env i (fuel + 1) = 1 + initCallsFrom env (i + 1) fuel := by
  unfold initCallsFrom
  have hstep : firstOkAux env i (fuel + 1) = firstOkAux env (i + 1) fuel := by
    simp [firstOkAux, h]
  rw [hstep]
  cases hk : firstOkAux env (i + 1) fuel with
  | none => simp; omega
  | some k =>
      have := firstOkAux_ge env fuel (i + 1) k hk
      simp
      omega

/-- The predicted number of calls never exceeds the fuel. -/
theorem initCallsFrom_le (env : InitEnv) (i fuel : Nat) :
    initCallsFrom env i fuel ≤ fuel := by
  unfold initCallsFrom
  cases hk : firstOkAux env i fuel with
  | none => exact Nat.le_refl fuel
  | some k =>
      have := firstOkAux_lt env fuel i k hk
      simp
      omega

/-- The code's `initialize` retry loop produces exactly the trace the
claim predicts, provided the terminal spawn succeeds. -/
theorem initLoop_trace_spec (env : InitEnv) (p : Bool) (l : Option Int)
    (s : Option String) (retry : Nat) (hs : env.spawnOk = true) :
    ∀ fuel i st, (initLoop env p l s retry fuel i st).trace =
      (List.range' i (initCallsFrom env i fuel)).flatMap
        fun j => .callInit j :: initGapSpec env p retry j := by
  intro fuel
  induction fuel with
  | zero =>
      intro i st
      simp [initLoop, initCallsFrom, firstOkAux]
  | succ fuel ih =>
      intro i st
      cases h : env.attemptRes i with
      | ok =>
          have hcalls : initCallsFrom env i (fuel + 1) = 1 := by
            simp [initCallsFrom, firstOkAux, h]
          rw [hcalls]
          simp [initLoop, h, List.range'_one, initGapSpec]
      | exn =>
          have hne : env.attemptRes i ≠ .ok := by rw [h]; intro hc; cases hc
          rw [initCallsFrom_step env i fuel hne, Nat.add_comm 1,
            List.range'_succ]
          have hgap : initGapSpec env p retry i =
              (if i < retry - 1 then [.sleepRetry] else []) := by
            simp [initGapSpec, h]
          simp only [List.flatMap_cons]
          rw [hgap, ← ih (i + 1) { st with connected := false }]
          simp [initLoop, h]
      | fail err =>
          have hne : env.attemptRes i ≠ .ok := by rw [h]; intro hc; cases hc
          rw [initCallsFrom_step env i fuel hne, Nat.add_comm 1,
            List.range'_succ]
          simp only [List.flatMap_cons]
          by_cases hsp : err = -10001 ∧ p = true ∧ i = 0
          · obtain ⟨he, hp2, hi⟩ := hsp
            subst he
            subst hi
            have hgap : initGapSpec env p retry 0 =
                [.spawnTerminal, .sleepStart] := by
              simp [initGapSpec, h, hp2]
            rw [hgap, ← ih 1 st]
            simp [initLoop, h, hp2, hs]
          · have hgap : initGapSpec env p retry i =
                (if i < retry - 1 then [.sleepRetry] else []) := by
              have hcond : ¬ (env.attemptRes i = .fail (-10001) ∧
                  p = true ∧ i = 0) := by
                rw [h]
                intro ⟨h1, h2, h3⟩
                injection h1 with h1
                exact hsp ⟨h1, h2, h3⟩
              simp only [initGapSpec, h]
              rw [if_neg (by intro hc; cases hc), if_neg]
              intro ⟨h1, h2, h3⟩
              injection h1 with h1
              exact hsp ⟨h1, h2, h3⟩
            rw [hgap, ← ih (i + 1) { st with connected := false }]
            have hcond2 : ¬ (err = -10001 ∧ p = true ∧ i = 0 ∧
                env.spawnOk = true) := by
              intro ⟨h1, h2, h3, _⟩
              exact hsp ⟨h1, h2, h3⟩
            simp [initLoop, h, hcond2]

/-- A gap contains no initialization call. -/
theorem countCalls_gap (env : InitEnv) (p : Bool) (retry i : Nat) :
    countCalls (initGapSpec env p retry i) = 0 := by
  unfold initGapSpec countCalls
  split
  · rfl
  split
  · rfl
  split <;> rfl

/-- The predicted trace contains exactly the predicted number of calls. -/
theorem countCalls_spec (env : InitEnv) (p : Bool) (retry : Nat) :
    ∀ c i, countCalls ((List.range' i c).flatMap
      fun j => .callInit j :: initGapSpec env p retry j) = c := by
  intro c
  induction c with
  | zero => intro i; rfl
  | succ c ih =>
      intro i
      rw [List.range'_succ, List.flatMap_cons]
      have h1 := countCalls_gap env p retry i
      have h2 := ih (i + 1)
      unfold countCalls at h1 h2 ⊢
      rw [List.countP_append, List.countP_cons, h1, h2]
      simp
      omega

/-- The loop returns `True` exactly when some attempt in its window
succeeds. -/
theorem initLoop_success_firstOk (env : InitEnv) (p : Bool) (l : Option Int)
    (s : Option String) (retry : Nat) :
    ∀ fuel i st, (initLoop env p l s retry fuel i st).success =
      (firstOkAux env i fuel).isSome := by
  intro fuel
  induction fuel with
  | zero => intro i st; simp [initLoop, firstOkAux]
  | succ fuel ih =>
      intro i st
      cases h : env.attemptRes i with
      | ok => simp [initLoop, firstOkAux, h]
      | exn =>
          have hne : env.attemptRes i ≠ .ok := by rw [h]; intro hc; cases hc
          simp only [initLoop, h]
          rw [ih (i + 1) { st with connected := false }]
          simp [firstOkAux, hne]
      | fail err =>
          have hne : env.attemptRes i ≠ .ok := by rw [h]; intro hc; cases hc
          by_cases hsp : err = -10001 ∧ p = true ∧ i = 0 ∧ env.spawnOk = true
          · simp only [initLoop, h, if_pos hsp]
            rw [ih (i + 1) st]
            simp [firstOkAux, hne]
          · simp only [initLoop, h, if_neg hsp]
            rw [ih (i + 1) { st with connected := false }]
            simp [firstOkAux, hne]

/-- `firstOkAux` finds an index exactly when some attempt in the window
succeeds. -/
theorem firstOkAux_isSome_iff (env : InitEnv) :
    ∀ fuel i, (firstOkAux env i fuel).isSome = true ↔
      ∃ j, j < fuel ∧ env.attemptRes (i + j) = .ok := by
  intro fuel
  induction fuel with
  | zero => intro i; simp [firstOkAux]
  | succ fuel ih =>
      intro i
      by_cases h : env.attemptRes i = .ok
      · simp only [firstOkAux, if_pos h]
        constructor
        · intro _
          exact ⟨0, by omega, by rw [Nat.add_zero]; exact h⟩
        · intro _
          rfl
      · simp only [firstOkAux, if_neg h]
        rw [ih (i + 1)]
        constructor
        · rintro ⟨j, hj, hok⟩
          refine ⟨j + 1, by omega, ?_⟩
          rw [show i + (j + 1) = i + 1 + j by omega]
          exact hok
        · rintro ⟨j, hj, hok⟩
          cases j with
          | zero =>
              rw [Nat.add_zero] at hok
              exact absurd hok h
          | succ j =>
              refine ⟨j, by omega, ?_⟩
              rw [show i + 1 + j = i + (j + 1) by omega]
              exact hok

/-- When the first successful attempt is found, the run leaves the state
connected with the stored login and server. -/
theorem initLoop_success_state (env : InitEnv) (p : Bool) (l : Option Int)
    (s : Option String) (retry : Nat) :
    ∀ fuel i st, (initLoop env p l s retry fuel i st).success = true →
      (initLoop env p l s retry fuel i st).state =
        { connected := true, loginV := l, serverV := s } := by
  intro fuel
  induction fuel with
  | zero => intro i st h; simp [initLoop] at h
  | succ fuel ih =>
      intro i st h
      cases hr : env.attemptRes i with
      | ok => simp [initLoop, hr]
      | exn =>
          simp only [initLoop, hr] at h ⊢
          exact ih (i + 1) _ h
      | fail err =>
          by_cases hsp : err = -10001 ∧ p = true ∧ i = 0 ∧ env.spawnOk = true
          · simp only [initLoop, hr, if_pos hsp] at h ⊢
            exact ih (i + 1) _ h
          · simp only [initLoop, hr, if_neg hsp] at h ⊢
            exact ih (i + 1) _ h

/-- `firstOkAux` finds exactly the least successful index in its window. -/
theorem firstOkAux_min (env : InitEnv) :
    ∀ fuel i k, i ≤ k → k < i + fuel →
      (∀ j, i ≤ j → j < k → env.attemptRes j ≠ .ok) →
      env.attemptRes k = .ok → firstOkAux env i fuel = some k := by
  intro fuel
  induction fuel with
  | zero => intro i k h1 h2; omega
  | succ fuel ih =>
      intro i k h1 h2 hmin hok
      by_cases hik : i = k
      · subst hik
        simp [firstOkAux, hok]
      · have hne : env.attemptRes i ≠ .ok := hmin i (Nat.le_refl i) (by omega)
        simp only [firstOkAux, if_neg hne]
        exact ih (i + 1) k (by omega) (by omega)
          (fun j hj hjk => hmin j (by omega) hjk) hok

/-- The index `firstOkAux` finds is a successful attempt. -/
theorem firstOkAux_ok (env : InitEnv) :
    ∀ fuel i k, firstOkAux env i fuel = some k →
      env.attemptRes k = .ok := by
  intro fuel
  induction fuel with
  | zero => intro i k h; cases h
  | succ fuel ih =>
      intro i k h
      by_cases hok : env.attemptRes i = .ok
      · simp [firstOkAux, hok] at h
        rw [← h]
        exact hok
      · simp [firstOkAux, hok] at h
        exact ih (i + 1) k h

/-- **C2.** For every `retry ≥ 1` (and a terminal spawn that succeeds),
`MT5Connection.initialize` produces exactly the predicted event trace:
it attempts the external initialization at most `retry` times (and at
least once), sleeping the fixed `retry_delay` between consecutive failed
attempts — except that a first-attempt failure with error `-10001` when a
path was given spawns the terminal, waits a fixed 5 seconds, and consumes
the next attempt without the `retry_delay` sleep; on the first successful
attempt it sets the connected flag (and stored login/server) and returns
`True`, and when every attempt fails it raises `MT5ConnectionError`
(`success = false`) rather than returning `False`. -/
theorem conn_initialize_retry (env : InitEnv) (p : Bool) (l : Option Int)
    (s : Option String) (retry : Nat) (hr : 1 ≤ retry)
    (hs : env.spawnOk = true) :
    (mt5Initialize env p l s retry ConnState.init).trace =
      initTraceSpec env p retry ∧
    countCalls (mt5Initialize env p l s retry ConnState.init).trace ≤
      retry ∧
    1 ≤ countCalls (mt5Initialize env p l s retry ConnState.init).trace ∧
    ((mt5Initialize env p l s retry ConnState.init).success = true ↔
      ∃ j, j < retry ∧ env.attemptRes j = .ok) ∧
    (∀ k, k < retry → (∀ j, j < k → env.attemptRes j ≠ .ok) →
      env.attemptRes k = .ok →
      (mt5Initialize env p l s retry ConnState.init).success = true ∧
      (mt5Initialize env p l s retry ConnState.init).state =
        { connected := true, loginV := l, serverV := s } ∧
      countCalls (mt5Initialize env p l s retry ConnState.init).trace =
        k + 1) ∧
    ((∀ j, j < retry → env.attemptRes j ≠ .ok) →
      (mt5Initialize env p l s retry ConnState.init).success = false) := by
  have htr := initLoop_trace_spec env p l s retry hs retry 0 ConnState.init
  have hcount : countCalls
      (mt5Initialize env p l s retry ConnState.init).trace =
      initCallsFrom env 0 retry := by
    rw [show (mt5Initialize env p l s retry ConnState.init).trace =
      (List.range' 0 (initCallsFrom env 0 retry)).flatMap
        (fun j => .callInit j :: initGapSpec env p retry j) from htr]
    exact countCalls_spec env p retry (initCallsFrom env 0 retry) 0
  have hsucc := initLoop_success_firstOk env p l s retry retry 0
    ConnState.init
  refine ⟨htr, ?_, ?_, ?_, ?_, ?_⟩
  · rw [hcount]
    exact initCallsFrom_le env 0 retry
  · rw [hcount]
    unfold initCallsFrom
    cases hk : firstOkAux env 0 retry with
    | none => exact hr
    | some k => simp
  · rw [show (mt5Initialize env p l s retry ConnState.init).success =
      (firstOkAux env 0 retry).isSome from hsucc]
    simpa using firstOkAux_isSome_iff env retry 0
  · intro k hk hmin hok
    have hfirst : firstOkAux env 0 retry = some k :=
      firstOkAux_min env retry 0 k (Nat.zero_le k) (by omega)
        (fun j _ hjk => hmin j hjk) hok
    have hsucc2 : (mt5Initialize env p l s retry ConnState.init).success =
        true := by
      rw [show (mt5Initialize env p l s retry ConnState.init).success =
        (firstOkAux env 0 retry).isSome from hsucc, hfirst]
      rfl
    refine ⟨hsucc2,
      initLoop_success_state env p l s retry retry 0 ConnState.init hsucc2,
      ?_⟩
    rw [hcount]
    unfold initCallsFrom
    rw [hfirst]
    simp
  · intro hall
    cases hfo : firstOkAux env 0 retry with
    | none =>
        rw [show (mt5Initialize env p l s retry ConnState.init).success =
          (firstOkAux env 0 retry).isSome from hsucc, hfo]
        rfl
    | some k =>
        have hk2 := firstOkAux_lt env retry 0 k hfo
        exact absurd (firstOkAux_ok env retry 0 k hfo)
          (hall k (by omega))

/-- **C2 witness.** The theorem applied with `retry = 3` to an environment
whose first attempt fails with `-10001` (spawning the terminal) and whose
second attempt succeeds: the run returns `True`, connects, and makes
exactly two external calls. -/
theorem conn_initialize_retry_witness :
    (mt5Initialize
        ⟨fun i => if i = 0 then .fail (-10001) else .ok, true⟩
        true none none 3 ConnState.init).success = true ∧
    (mt5Initialize
        ⟨fun i => if i = 0 then .fail (-10001) else .ok, true⟩
        true none none 3 ConnState.init).state =
      { connected := true, loginV := none, serverV := none } ∧
    countCalls (mt5Initialize
        ⟨fun i => if i = 0 then .fail (-10001) else .ok, true⟩
        true none none 3 ConnState.init).trace = 1 + 1 := by
  refine (conn_initialize_retry
    ⟨fun i => if i = 0 then .fail (-10001) else .ok, true⟩
    true none none 3 (by omega) rfl).2.2.2.2.1 1 (by omega) ?_ (by decide)
  intro j hj
  have hj0 : j = 0 := by omega
  subst hj0
  decide

/-- State after a step on an attempt that raised. -/
theorem initLoop_state_exn (env : InitEnv) (p : Bool) (l : Option Int)
    (s : Option String) (retry fuel i : Nat) (st : ConnState)
    (h : env.attemptRes i = .exn) :
    (initLoop env p l s retry (fuel + 1) i st).state =
      (initLoop env p l s retry fuel (i + 1)
        { st with connected := false }).state := by
  simp [initLoop, h]

/-- State after a step on the spawn special case. -/
theorem initLoop_state_fail_spawn (env : InitEnv) (p : Bool) (l : Option Int)
    (s : Option String) (retry fuel i : Nat) (st : ConnState) (err : Int)
    (h : env.attemptRes i = .fail err)
    (hsp : err = -10001 ∧ p = true ∧ i = 0 ∧ env.spawnOk = true) :
    (initLoop env p l s retry (fuel + 1) i st).state =
      (initLoop env p l s retry fuel (i + 1) st).state := by
  simp only [initLoop, h, if_pos hsp]

/-- State after a step on an ordinary failed attempt. -/
theorem initLoop_state_fail_normal (env : InitEnv) (p : Bool)
    (l : Option Int) (s : Option String) (retry fuel i : Nat)
    (st : ConnState) (err : Int)
    (h : env.attemptRes i = .fail err)
    (hsp : ¬ (err = -10001 ∧ p = true ∧ i = 0 ∧ env.spawnOk = true)) :
    (initLoop env p l s retry (fuel + 1) i st).state =
      (initLoop env p l s retry fuel (i + 1)
        { st with connected := false }).state := by
  simp only [initLoop, h, if_neg hsp]

/-- When every attempt in the window fails, the final flag is cleared —
except when the window consists solely of the first-attempt spawn special
case, which leaves the flag untouched. -/
theorem initLoop_connected_all_fail (env : InitEnv) (p : Bool)
    (l : Option Int) (s : Option String) (retry : Nat) :
    ∀ fuel i st, 1 ≤ fuel →
      (∀ j, j < fuel → env.attemptRes (i + j) ≠ .ok) →
      (initLoop env p l s retry fuel i st).state.connected =
        if fuel = 1 ∧ env.attemptRes i = .fail (-10001) ∧ p = true ∧
            i = 0 ∧ env.spawnOk = true
        then st.connected else false := by
  intro fuel
  induction fuel with
  | zero => intro i st h; omega
  | succ fuel ih =>
      intro i st _ hall
      have hne : env.attemptRes i ≠ .ok := by
        have h0 := hall 0 (by omega)
        rwa [Nat.add_zero] at h0
      have hshift : ∀ j, j < fuel → env.attemptRes (i + 1 + j) ≠ .ok := by
        intro j hj
        have hj1 := hall (j + 1) (by omega)
        rwa [show i + (j + 1) = i + 1 + j by omega] at hj1
      cases hr : env.attemptRes i with
      | ok => exact absurd hr hne
      | exn =>
          rw [initLoop_state_exn env p l s retry fuel i st hr]
          rw [if_neg (by rintro ⟨_, hc, _⟩; cases hc)]
          cases fuel with
          | zero => rfl
          | succ fuel2 =>
              rw [ih (i + 1) { st with connected := false } (by omega)
                hshift]
              rw [if_neg (by rintro ⟨_, _, _, hi, _⟩; omega)]
      | fail err =>
          by_cases hsp : err = -10001 ∧ p = true ∧ i = 0 ∧
              env.spawnOk = true
          · rw [initLoop_state_fail_spawn env p l s retry fuel i st err
              hr hsp]
            cases fuel with
            | zero =>
                rw [if_pos ⟨rfl, by rw [hsp.1], hsp.2.1, hsp.2.2.1,
                  hsp.2.2.2⟩]
                rfl
            | succ fuel2 =>
                rw [if_neg (by rintro ⟨h1, _⟩; omega)]
                rw [ih (i + 1) st (by omega) hshift]
                rw [if_neg (by rintro ⟨_, _, _, hi, _⟩; omega)]
          · rw [initLoop_state_fail_normal env p l s retry fuel i st err
              hr hsp]
            rw [if_neg (by
              rintro ⟨_, hc, hp2, hi, hsw⟩
              injection hc with hc
              exact hsp ⟨hc, hp2, hi, hsw⟩)]
            cases fuel with
            | zero => rfl
            | succ fuel2 =>
                rw [ih (i + 1) { st with connected := false } (by omega)
                  hshift]
                rw [if_neg (by rintro ⟨_, _, _, hi, _⟩; omega)]

/-- **C4 counterexample.** The connected flag does not become `False` on
every failed initialize attempt: starting from a connected state, calling
`initialize` with `retry = 1`, a path, and an external error `-10001`
takes the spawn special case, the single attempt fails, the method raises
`MT5ConnectionError` — and the flag is still `True`. -/
theorem conn_flag_spawn_counterexample :
    (mt5Initialize ⟨fun _ => .fail (-10001), true⟩ true none none 1
      { connected := true, loginV := none, serverV := none }).success =
      false ∧
    (mt5Initialize ⟨fun _ => .fail (-10001), true⟩ true none none 1
      { connected := true, loginV := none, serverV := none
        }).state.connected = true := by
  constructor <;> rfl

/-- **C4 (amended).** The connection's only state is the `connected` flag
plus the stored login and server: the flag is `False` on construction; it
becomes `True` (with login and server stored) exactly when an initialize
attempt succeeds; when every attempt fails it is cleared — except that a
run consisting solely of the first-attempt spawn special case leaves it
untouched; `shutdown` clears it; `is_connected` returns exactly the flag;
and `get_terminal_info`, `get_version` and the account-switching `login`
raise `MT5ConnectionError` whenever the flag is `False`. -/
theorem conn_flag_state_machine (ienv : InitEnv) (qenv : ConnQueryEnv)
    (p : Bool) (l : Option Int) (s : Option String) (retry : Nat) :
    ConnState.init.connected = false ∧
    (∀ st, (mt5Initialize ienv p l s retry st).success = true →
      (mt5Initialize ienv p l s retry st).state =
        { connected := true, loginV := l, serverV := s }) ∧
    (∀ k st, (∀ j, j ≤ k → ienv.attemptRes j ≠ .ok) →
      (initLoop ienv p l s retry (k + 1) 0 st).state.connected =
        (if k = 0 ∧ ienv.attemptRes 0 = .fail (-10001) ∧ p = true ∧
            ienv.spawnOk = true
         then st.connected else false)) ∧
    (∀ st, mt5Shutdown st = { st with connected := false }) ∧
    (∀ st, mt5IsConnected st = st.connected) ∧
    (∀ st n srv, st.connected = false →
      mt5GetTerminalInfo qenv st = .error .mt5ConnectionError ∧
      mt5GetVersion qenv st = .error .mt5ConnectionError ∧
      mt5Login qenv st n srv = .error .mt5ConnectionError) := by
  refine ⟨rfl, ?_, ?_, ?_, fun st => rfl, ?_⟩
  · intro st h
    exact initLoop_success_state ienv p l s retry retry 0 st h
  · intro k st hall
    rw [initLoop_connected_all_fail ienv p l s retry (k + 1) 0 st
      (by omega) (by
        intro j hj
        rw [Nat.zero_add]
        exact hall j (by omega))]
    by_cases hk : k = 0 ∧ ienv.attemptRes 0 = .fail (-10001) ∧ p = true ∧
        ienv.spawnOk = true
    · rw [if_pos hk, if_pos ⟨by omega, hk.2.1, hk.2.2.1, rfl, hk.2.2.2⟩]
    · rw [if_neg hk, if_neg (by
        rintro ⟨h1, h2, h3, _, h4⟩
        exact hk ⟨by omega, h2, h3, h4⟩)]
  · intro st
    unfold mt5Shutdown
    split
    · rfl
    · next hcon =>
        cases hc : st.connected with
        | true => exact absurd hc hcon
        | false =>
            cases st
            simp at hc
            rw [hc]
  · intro st n srv h
    have hnc : ¬ st.connected = true := by rw [h]; intro hc; cases hc
    exact ⟨by simp [mt5GetTerminalInfo, hnc],
           by simp [mt5GetVersion, hnc],
           by simp [mt5Login, hnc]⟩

/-- **C4 (amended) witness.** The theorem applied concretely: two failed
ordinary attempts leave the flag cleared, and the queries on a fresh
(disconnected) connection raise `MT5ConnectionError`. -/
theorem conn_flag_state_machine_witness :
    (initLoop ⟨fun _ => .fail (-5), true⟩ false none none 3 2 0
      ConnState.init).state.connected = false ∧
    mt5GetTerminalInfo ⟨none, none, .ok⟩ ConnState.init =
      .error .mt5ConnectionError := by
  have h := conn_flag_state_machine ⟨fun _ => .fail (-5), true⟩
    ⟨none, none, .ok⟩ false none none 3
  constructor
  · rw [h.2.2.1 1 ConnState.init (fun j hj hc => by cases hc)]
    rfl
  · exact (h.2.2.2.2.2 ConnState.init 7 none rfl).1
